import Mathlib

/-!
# Si7021 driver for the Pearl Gecko: the interrupt-driven I2C transaction engine

A shallow embedding of `src/Si7021/i2c.c` (and of the parts of `src/Si7021/Si7021.c`
that use it).  The C program is stateful; here every C function is a function on an
explicit `World`:

* the private variable `i2c_State` (the Transaction State),
* the data memory that the pointer `Data` points into (`mem`, one 32-bit word per address),
* the readable registers of both I2C peripherals (`STATE`, `IF`, `IEN`, `RXDATA`),
* the chronological `trace` of everything the code does to its surroundings
  (register writes, power-manager calls, scheduler calls, failed assertions),
* the flag `halted`, set by a failed `EFM_ASSERT`.

Machine integers are `Nat`; the 32-bit wrap-around is explicit where a C operation can
overflow (`<<`, `~`).
-/

namespace Si7021

/-! ## Data model -/

/-- The I2C peripherals of the device, the possible values of an `I2C_TypeDef *`. -/
inductive Periph
  | I2C0
  | I2C1
  deriving DecidableEq

/-- Constants of the vendor header `em_i2c.h` and of `sleep_routines.h`.  Neither header
is in the repository, so the encodings are a parameter of the whole development. -/
structure Consts where
  I2C_CMD_START : Nat
  I2C_CMD_STOP : Nat
  I2C_CMD_ACK : Nat
  I2C_CMD_NACK : Nat
  I2C_CMD_ABORT : Nat
  I2C_CMD_CLEARTX : Nat
  I2C_IF_ACK : Nat
  I2C_IF_NACK : Nat
  I2C_IF_RXDATAV : Nat
  I2C_IF_MSTOP : Nat
  I2C_IF_SSTOP : Nat
  I2C_STATE_STATE_MASK : Nat
  I2C_STATE_STATE_IDLE : Nat
  EM2 : Nat

/-- The encodings of the EFM32PG12 (Pearl Gecko) device header, used for concrete runs. -/
def pearlGecko : Consts where
  I2C_CMD_START := 0x01
  I2C_CMD_STOP := 0x02
  I2C_CMD_ACK := 0x04
  I2C_CMD_NACK := 0x08
  I2C_CMD_ABORT := 0x20
  I2C_CMD_CLEARTX := 0x40
  I2C_IF_ACK := 0x40
  I2C_IF_NACK := 0x80
  I2C_IF_RXDATAV := 0x20
  I2C_IF_MSTOP := 0x100
  I2C_IF_SSTOP := 0x10000
  I2C_STATE_STATE_MASK := 0xE0
  I2C_STATE_STATE_IDLE := 0x00
  EM2 := 2

/-- The registers of one peripheral that the driver reads. -/
structure I2C_TypeDef where
  STATE : Nat
  IF : Nat
  IEN : Nat
  RXDATA : Nat
  deriving DecidableEq

/-- The registers of a peripheral that the driver writes. -/
inductive Reg
  | CMD
  | TXDATA
  | IFC
  | IEN
  deriving DecidableEq

/-- First enumerator of `enum state{Call, Measure, Read, MS, LS, MStop};` (i2c.c, line 24). -/
abbrev Call : Nat := 0

/-- Second enumerator of `enum state`. -/
abbrev Measure : Nat := 1

/-- Third enumerator of `enum state`. -/
abbrev Read : Nat := 2

/-- Fourth enumerator of `enum state`. -/
abbrev MS : Nat := 3

/-- Fifth enumerator of `enum state`. -/
abbrev LS : Nat := 4

/-- Sixth enumerator of `enum state`. -/
abbrev MStop : Nat := 5

/-- The struct `I2C_STATE_MACHINE` of i2c.h: the Transaction State.  `i2c` is the pointer
to the peripheral, `Data` the address of the result word. -/
structure I2C_STATE_MACHINE where
  STATE : Nat
  i2c : Periph
  slaveAddress : Nat
  Command : Nat
  Data : Nat
  SI7021_Read_CB : Nat
  deriving DecidableEq

/-- What the code does to its surroundings. -/
inductive Effect
  | write (p : Periph) (r : Reg) (v : Nat)
  | sleep_block_mode (em : Nat)
  | sleep_unblock_mode (em : Nat)
  | add_scheduled_event (cb : Nat)
  | assertFail
  deriving DecidableEq

/-- The state the C code runs in. -/
structure World where
  i2c_State : I2C_STATE_MACHINE
  mem : Nat → Nat
  regs : Periph → I2C_TypeDef
  trace : List Effect
  halted : Bool

/-! ## Primitive operations -/

/-- Truncation of a C expression of type `uint32_t`. -/
def u32 (x : Nat) : Nat := x % 2 ^ 32

/-- The C operator `~` on a `uint32_t`. -/
def not32 (x : Nat) : Nat := 2 ^ 32 - 1 - x % 2 ^ 32

/-- A store to a peripheral register.  Every store is logged.  `IEN` is an ordinary
read/write register; a store to `IFC` clears in `IF` the flags that are set in the stored
value ("clear them all immediately", spec 4.4); `CMD` and `TXDATA` are write-only. -/
def regWrite (p : Periph) (r : Reg) (v : Nat) (w : World) : World :=
  { w with
    regs :=
      match r with
      | Reg.IEN => Function.update w.regs p { w.regs p with IEN := v }
      | Reg.IFC => Function.update w.regs p { w.regs p with IF := (w.regs p).IF ^^^ ((w.regs p).IF &&& v) }
      | Reg.CMD => w.regs
      | Reg.TXDATA => w.regs
    trace := w.trace ++ [Effect.write p r v] }

/-- Modelled from the spec: `EFM_ASSERT` of `em_assert.h`, which is not in the repository.
A failed assertion is fatal: it is recorded and execution halts. -/
def EFM_ASSERT (expr : Bool) (w : World) : World :=
  if expr then w else { w with trace := w.trace ++ [Effect.assertFail], halted := true }

/-- The call `sleep_block_mode(em)` into the power manager. -/
def sleep_block_mode (em : Nat) (w : World) : World :=
  { w with trace := w.trace ++ [Effect.sleep_block_mode em] }

/-- The call `sleep_unblock_mode(em)` into the power manager. -/
def sleep_unblock_mode (em : Nat) (w : World) : World :=
  { w with trace := w.trace ++ [Effect.sleep_unblock_mode em] }

/-- The call `add_scheduled_event(cb)` into the scheduler. -/
def add_scheduled_event (cb : Nat) (w : World) : World :=
  { w with trace := w.trace ++ [Effect.add_scheduled_event cb] }

/-- Assignment to `i2cState->STATE`. -/
def setSTATE (s : Nat) (w : World) : World :=
  { w with i2c_State := { w.i2c_State with STATE := s } }

/-- Assignment to `*(i2cState->Data)`. -/
def setData (v : Nat) (w : World) : World :=
  { w with mem := Function.update w.mem w.i2c_State.Data v }

/-- Code that follows in program order runs only while execution has not halted. -/
def next (f : World → World) (w : World) : World :=
  if w.halted then w else f w

/-! ## Event handlers (i2c.c, lines 109 to 224) -/

/-- The function `i2c_ACK_fun`, called with `&i2c_State`. -/
def i2c_ACK_fun (k : Consts) (w : World) : World :=
  if w.i2c_State.STATE = Call then
    setSTATE Measure (regWrite w.i2c_State.i2c Reg.TXDATA w.i2c_State.Command w)
  else if w.i2c_State.STATE = Measure then
    setSTATE Read
      (regWrite w.i2c_State.i2c Reg.TXDATA (u32 (w.i2c_State.slaveAddress <<< 1) ||| 1)
        (regWrite w.i2c_State.i2c Reg.CMD k.I2C_CMD_START w))
  else if w.i2c_State.STATE = Read then
    setSTATE MS w
  else
    EFM_ASSERT false w

/-- The function `i2c_NACK_fun`, called with `&i2c_State`. -/
def i2c_NACK_fun (k : Consts) (w : World) : World :=
  if w.i2c_State.STATE = Read then
    regWrite w.i2c_State.i2c Reg.TXDATA (u32 (w.i2c_State.slaveAddress <<< 1) ||| 1)
      (regWrite w.i2c_State.i2c Reg.CMD k.I2C_CMD_START w)
  else
    EFM_ASSERT false w

/-- The function `i2c_RXDATAV_fun`, called with `&i2c_State`. -/
def i2c_RXDATAV_fun (k : Consts) (w : World) : World :=
  if w.i2c_State.STATE = MS then
    regWrite w.i2c_State.i2c Reg.CMD k.I2C_CMD_ACK
      (setSTATE LS (setData (u32 ((w.regs w.i2c_State.i2c).RXDATA <<< 8)) w))
  else if w.i2c_State.STATE = LS then
    regWrite w.i2c_State.i2c Reg.CMD k.I2C_CMD_STOP
      (regWrite w.i2c_State.i2c Reg.CMD k.I2C_CMD_NACK
        (setSTATE MStop
          (setData (w.mem w.i2c_State.Data ||| (w.regs w.i2c_State.i2c).RXDATA) w)))
  else
    EFM_ASSERT false w

/-- The function `i2c_MSTOP_fun`, called with `&i2c_State`. -/
def i2c_MSTOP_fun (k : Consts) (w : World) : World :=
  if w.i2c_State.STATE = MStop then
    setSTATE Call (add_scheduled_event w.i2c_State.SI7021_Read_CB (sleep_unblock_mode k.EM2 w))
  else
    EFM_ASSERT false w

/-! ## Transaction initiator (i2c.c, lines 338 to 357) -/

/-- The function `I2C_Start`. -/
def I2C_Start (k : Consts) (i2c : Periph) (data address SI7021_READ_CB Command : Nat)
    (w : World) : World :=
  next (fun w1 =>
      regWrite i2c Reg.TXDATA (u32 (address <<< 1) ||| 0)
        (regWrite i2c Reg.CMD k.I2C_CMD_START
          { sleep_block_mode k.EM2 w1 with
            i2c_State :=
              { STATE := Call, slaveAddress := address, i2c := i2c, Command := Command,
                Data := data, SI7021_Read_CB := SI7021_READ_CB } }))
    (EFM_ASSERT
      (decide ((w.regs i2c).STATE &&& k.I2C_STATE_STATE_MASK = k.I2C_STATE_STATE_IDLE)) w)

/-! ## Interrupt dispatch (i2c.c, lines 366 to 412) -/

/-- The interrupt service routine `I2C0_IRQHandler`. -/
def I2C0_IRQHandler (k : Consts) (w : World) : World :=
  let int_flag := (w.regs Periph.I2C0).IF &&& (w.regs Periph.I2C0).IEN
  let w1 := regWrite Periph.I2C0 Reg.IFC int_flag w
  let w2 := if int_flag &&& k.I2C_IF_ACK ≠ 0 then next (i2c_ACK_fun k) w1 else w1
  let w3 := if int_flag &&& k.I2C_IF_NACK ≠ 0 then next (i2c_NACK_fun k) w2 else w2
  let w4 := if int_flag &&& k.I2C_IF_RXDATAV ≠ 0 then next (i2c_RXDATAV_fun k) w3 else w3
  if int_flag &&& k.I2C_IF_MSTOP ≠ 0 then next (i2c_MSTOP_fun k) w4 else w4

/-- The interrupt service routine `I2C1_IRQHandler`. -/
def I2C1_IRQHandler (k : Consts) (w : World) : World :=
  let int_flag := (w.regs Periph.I2C1).IF &&& (w.regs Periph.I2C1).IEN
  let w1 := regWrite Periph.I2C1 Reg.IFC int_flag w
  let w2 := if int_flag &&& k.I2C_IF_ACK ≠ 0 then next (i2c_ACK_fun k) w1 else w1
  let w3 := if int_flag &&& k.I2C_IF_NACK ≠ 0 then next (i2c_NACK_fun k) w2 else w2
  let w4 := if int_flag &&& k.I2C_IF_RXDATAV ≠ 0 then next (i2c_RXDATAV_fun k) w3 else w3
  if int_flag &&& k.I2C_IF_MSTOP ≠ 0 then next (i2c_MSTOP_fun k) w4 else w4

/-- The part that `I2C0_IRQHandler` and `I2C1_IRQHandler` have in common: the four tests
of `int_flag`, each followed by the call of its handler. -/
def serve (k : Consts) (int_flag : Nat) (w1 : World) : World :=
  let w2 := if int_flag &&& k.I2C_IF_ACK ≠ 0 then next (i2c_ACK_fun k) w1 else w1
  let w3 := if int_flag &&& k.I2C_IF_NACK ≠ 0 then next (i2c_NACK_fun k) w2 else w2
  let w4 := if int_flag &&& k.I2C_IF_RXDATAV ≠ 0 then next (i2c_RXDATAV_fun k) w3 else w3
  if int_flag &&& k.I2C_IF_MSTOP ≠ 0 then next (i2c_MSTOP_fun k) w4 else w4

/-- The interrupt sources that `i2c_open` enables (the flags it passes to `I2C_IntEnable`,
i2c.c line 298). -/
def i2c_open_enabled (k : Consts) : Nat :=
  k.I2C_IF_ACK ||| k.I2C_IF_NACK ||| k.I2C_IF_MSTOP ||| k.I2C_IF_SSTOP ||| k.I2C_IF_RXDATAV

/-! ## Bus reset (i2c.c, lines 54 to 91) -/

/-- The hardware raises the flags `f` in the `IF` register of peripheral `p`. -/
def hwRaise (p : Periph) (f : Nat) (w : World) : World :=
  { w with regs := Function.update w.regs p { w.regs p with IF := (w.regs p).IF ||| f } }

/-- The busy-wait `while(!(i2c->IF & I2C_IF_MSTOP));` of `i2c_bus_reset`.  `IF` is a
volatile register: before the `n`-th poll the hardware raises the flags `env n`.  The loop
is run for at most `fuel` polls; `none` means that it has not left the loop by then. -/
def waitMSTOP (k : Consts) (env : Nat → Nat) (p : Periph) : Nat → Nat → World → Option World
  | 0, _, _ => none
  | fuel + 1, n, w =>
    if ((hwRaise p (env n) w).regs p).IF &&& k.I2C_IF_MSTOP ≠ 0 then
      some (hwRaise p (env n) w)
    else
      waitMSTOP k env p fuel (n + 1) (hwRaise p (env n) w)

/-- The function `i2c_bus_reset`; `fuel` and `env` are those of `waitMSTOP`. -/
def i2c_bus_reset (k : Consts) (fuel : Nat) (env : Nat → Nat) (i2c : Periph) (w : World) :
    Option World :=
  let w1 := regWrite i2c Reg.CMD k.I2C_CMD_ABORT w
  let savestate := (w1.regs i2c).IEN
  let w2 := regWrite i2c Reg.IEN (not32 (w1.regs i2c).IEN) w1
  let w3 := regWrite i2c Reg.IFC savestate w2
  let w4 := regWrite i2c Reg.CMD k.I2C_CMD_CLEARTX w3
  let w5 := regWrite i2c Reg.CMD (k.I2C_CMD_START ||| k.I2C_CMD_STOP) w4
  match waitMSTOP k env i2c fuel 0 w5 with
  | none => none
  | some w6 =>
    let w7 := regWrite i2c Reg.IFC (w6.regs i2c).IF w6
    let w8 := regWrite i2c Reg.IEN savestate w7
    some (regWrite i2c Reg.CMD k.I2C_CMD_ABORT w8)

/-- The world in which the busy-wait of `i2c_bus_reset` begins: the statements of lines 57
to 74 have run. -/
def resetBeforeWait (k : Consts) (i2c : Periph) (w : World) : World :=
  let w1 := regWrite i2c Reg.CMD k.I2C_CMD_ABORT w
  let savestate := (w1.regs i2c).IEN
  let w2 := regWrite i2c Reg.IEN (not32 (w1.regs i2c).IEN) w1
  let w3 := regWrite i2c Reg.IFC savestate w2
  let w4 := regWrite i2c Reg.CMD k.I2C_CMD_CLEARTX w3
  regWrite i2c Reg.CMD (k.I2C_CMD_START ||| k.I2C_CMD_STOP) w4

/-! ## Sensor adapter (Si7021.c and Si7021.h) -/

/-- The macro `SI7021_I2C_ADDRESS` of Si7021.h. -/
def SI7021_I2C_ADDRESS : Nat := 0x40

set_option linter.unusedVariables false in
/-- The function `si7021_read` of Si7021.c; `data` is the address of the private variable
`data`, the result word of the driver. -/
def si7021_read (k : Consts) (data : Nat) (SI7021_READ_CB : Nat) (i2c : Periph)
    (w : World) : World :=
  I2C_Start k Periph.I2C0 data SI7021_I2C_ADDRESS SI7021_READ_CB 0xf5 w

/-- The finite values of the C type `float` (IEEE 754 binary32), as rationals: `m * 2 ^ e`
with a significand of at most 24 bits and an exponent from -149 to 104. -/
def IsFloat (x : ℚ) : Prop :=
  ∃ m e : ℤ, |m| < 2 ^ 24 ∧ -149 ≤ e ∧ e ≤ 104 ∧ x = m * (2 : ℚ) ^ e

/-- Rounding of a rational to the nearest integer, ties to the even one. -/
def roundEven (q : ℚ) : ℤ :=
  if q - ⌊q⌋ < 1 / 2 then ⌊q⌋
  else if 1 / 2 < q - ⌊q⌋ then ⌊q⌋ + 1
  else if ⌊q⌋ % 2 = 0 then ⌊q⌋ else ⌊q⌋ + 1

/-- The exponent of the unit in the last place of the `float` values around `x`
(24 significant bits, smallest normal exponent -126). -/
def ulpExp (x : ℚ) : ℤ :=
  max (Int.log 2 |x|) (-126) - 23

/-- Rounding to the nearest `float`, ties to even, the default rounding of the C
arithmetic.  Overflow to infinity is left out: the values of the driver stay below
`2 ^ 24`. -/
def roundFloat (x : ℚ) : ℚ :=
  roundEven (x / 2 ^ ulpExp x) * 2 ^ ulpExp x

/-- The function `si7021_return_humidity` of Si7021.c, which computes
`(125*((float)(data))/65536) - 6` in `float` arithmetic: the conversion of `data` and
every operation round their exact result with `rnd`.  `data` is the address of the private
variable `data`. -/
def si7021_return_humidity (rnd : ℚ → ℚ) (data : Nat) (w : World) : ℚ :=
  rnd (rnd (rnd (125 * rnd ((w.mem data : ℕ) : ℚ)) / 65536) - 6)

/-! ## Runs of the state machine -/

/-- The bus events that the four handlers serve; a data-available event carries the byte
that the hardware has placed in `RXDATA`. -/
inductive Event
  | ACK
  | NACK
  | RXDATAV (rx : Nat)
  | MSTOP
  deriving DecidableEq

/-- The hardware places a received byte in `RXDATA` of the peripheral of the transaction. -/
def hwReceive (b : Nat) (w : World) : World :=
  { w with
    regs := Function.update w.regs w.i2c_State.i2c { w.regs w.i2c_State.i2c with RXDATA := b } }

/-- The handler that serves an event. -/
def handle (k : Consts) : Event → World → World
  | Event.ACK, w => i2c_ACK_fun k w
  | Event.NACK, w => i2c_NACK_fun k w
  | Event.RXDATAV b, w => i2c_RXDATAV_fun k (hwReceive b w)
  | Event.MSTOP, w => i2c_MSTOP_fun k w

/-- The handlers of a sequence of events, one after the other. -/
def runEvents (k : Consts) : List Event → World → World
  | [], w => w
  | e :: es, w => runEvents k es (next (handle k e) w)

/-- A world at rest: nothing recorded, not halted, all registers zero. -/
def world0 : World where
  i2c_State := { STATE := 0, i2c := Periph.I2C0, slaveAddress := 0, Command := 0, Data := 0,
                 SI7021_Read_CB := 0 }
  mem := fun _ => 0
  regs := fun _ => { STATE := 0, IF := 0, IEN := 0, RXDATA := 0 }
  trace := []
  halted := false

/-! ## Vocabulary of the claims -/

/-- The effects recorded after the world `w`, up to the later world `w1`. -/
def effectsSince (w w1 : World) : List Effect :=
  w1.trace.drop w.trace.length

/-- Calls into the power manager. -/
def isPowerCall : Effect → Bool
  | Effect.sleep_block_mode _ => true
  | Effect.sleep_unblock_mode _ => true
  | _ => false

/-- Calls into the scheduler. -/
def isSchedulerCall : Effect → Bool
  | Effect.add_scheduled_event _ => true
  | _ => false

/-- The register writes of `n` attempts to address the slave for reading. -/
def retryWrites (k : Consts) (p : Periph) (address : Nat) : Nat → List Effect
  | 0 => []
  | n + 1 =>
    Effect.write p Reg.CMD k.I2C_CMD_START ::
      Effect.write p Reg.TXDATA (u32 (address <<< 1) ||| 1) :: retryWrites k p address n

/-- The events of a complete transaction in which the read address is not acknowledged
`n` times. -/
def transactionEvents (n b1 b2 : Nat) : List Event :=
  [Event.ACK, Event.ACK] ++ List.replicate n Event.NACK ++
    [Event.ACK, Event.RXDATAV b1, Event.RXDATAV b2, Event.MSTOP]

/-- The seven (phase, event) pairs of the transition table of the state machine. -/
def inTransitionTable (s : Nat) : Event → Bool
  | Event.ACK => s == Call || s == Measure || s == Read
  | Event.NACK => s == Read
  | Event.RXDATAV _ => s == MS || s == LS
  | Event.MSTOP => s == MStop

/-- The handlers in the fixed priority order of the dispatch contract, each with the
interrupt flag that selects it: ACK, NACK, RXDATAV, MSTOP. -/
def dispatchOrder (k : Consts) : List (Nat × (World → World)) :=
  [(k.I2C_IF_ACK, i2c_ACK_fun k), (k.I2C_IF_NACK, i2c_NACK_fun k),
   (k.I2C_IF_RXDATAV, i2c_RXDATAV_fun k), (k.I2C_IF_MSTOP, i2c_MSTOP_fun k)]

/-- Sequential composition of handlers: each one sees the world left by the one before. -/
def runHandlers : List (World → World) → World → World
  | [], w => w
  | f :: fs, w => runHandlers fs (next f w)

/-- The dispatch contract in the words of the spec, for the peripheral `p`: read the
pending and enabled flags, clear them all, then invoke in the fixed order the handler of
each flag that is set, and no other. -/
def dispatchContract (k : Consts) (p : Periph) (w : World) : World :=
  runHandlers
    (((dispatchOrder k).filter
        (fun h => decide (((w.regs p).IF &&& (w.regs p).IEN) &&& h.1 ≠ 0))).map Prod.snd)
    (regWrite p Reg.IFC ((w.regs p).IF &&& (w.regs p).IEN) w)

/-- The later world has the trace of the earlier one, and possibly more. -/
def TraceExtends (w w1 : World) : Prop :=
  ∃ l, w1.trace = w.trace ++ l

/-- Calls of `sleep_block_mode`. -/
def isBlock : Effect → Bool
  | Effect.sleep_block_mode _ => true
  | _ => false

/-- Calls of `sleep_unblock_mode`. -/
def isUnblock : Effect → Bool
  | Effect.sleep_unblock_mode _ => true
  | _ => false

/-- Two complete sequences of events, one after the other, after a single `I2C_Start`. -/
def doubleRun : World :=
  runEvents pearlGecko (transactionEvents 0 0x30 0x9A ++ transactionEvents 0 0x30 0x9A)
    (I2C_Start pearlGecko Periph.I2C0 7 0x40 42 0xF5 world0)

/-- The immediate successor of a phase in the cyclic order
Call, Measure, Read, MS, LS, MStop, Call. -/
def nextPhase (s : Nat) : Nat :=
  if s = MStop then Call else s + 1

/-- The phases a run goes through: `STATE` before the first event and after each event. -/
def phases (k : Consts) : List Event → World → List Nat
  | [], w => [w.i2c_State.STATE]
  | e :: es, w => w.i2c_State.STATE :: phases k es (next (handle k e) w)

/-- A bus before the reset: I2C0 has the ACK, NACK, RXDATAV and MSTOP interrupts enabled
and its MSTOP flag is pending. -/
def resetIn : World :=
  { world0 with regs := fun _ => { STATE := 0, IF := 0x100, IEN := 0x1E0, RXDATA := 0 } }

/-- Hardware that raises the MSTOP flag before the third poll of the busy-wait. -/
def resetEnv (n : Nat) : Nat :=
  if n = 2 then 0x100 else 0

/-- The world in which the reset of `resetIn` returns. -/
def resetOut : World :=
  (i2c_bus_reset pearlGecko 5 resetEnv Periph.I2C0 resetIn).getD world0

/-- The value that serving an event stores in the result word, if it stores one: in phase
`MS` a data-available event stores the received byte shifted to bits 8 to 15, in phase
`LS` it ORs the received byte into the word `old`; nothing else stores. -/
def resultWrite (s old : Nat) : Event → Option Nat
  | Event.RXDATAV b =>
    if s = MS then some (u32 (b <<< 8)) else if s = LS then some (old ||| b) else none
  | _ => none

/-- A world in phase `LS` whose result word, at address 7, holds the high byte 0x30. -/
def worldLS : World :=
  { world0 with
    i2c_State := { world0.i2c_State with STATE := LS, Data := 7 }
    mem := fun _ => 0x3000 }

/-- A world in phase `Read` whose result word, at address 7, holds 0x3000. -/
def worldRead : World :=
  { world0 with
    i2c_State := { world0.i2c_State with STATE := Read, Data := 7 }
    mem := fun _ => 0x3000 }

/-- The register writes that go to the peripheral `p`. -/
def writesOf (p : Periph) : List Effect → List (Reg × Nat)
  | [] => []
  | Effect.write q r v :: l => if q = p then (r, v) :: writesOf p l else writesOf p l
  | _ :: l => writesOf p l

/-- Two runs agree: started in the worlds `v` and `v1`, they have reached `u` and `u1`
with the same Transaction State and halt flag, and have recorded the same effects `l`,
whose register writes all go to the peripheral stored in the Transaction State. -/
def Agree (v v1 u u1 : World) : Prop :=
  u.i2c_State = u1.i2c_State ∧ u.halted = u1.halted ∧
  u.i2c_State.i2c = v.i2c_State.i2c ∧
  ∃ l, u.trace = v.trace ++ l ∧ u1.trace = v1.trace ++ l ∧
    ∀ q r x, Effect.write q r x ∈ l → q = v.i2c_State.i2c

/-- A world in phase `LS` with the data-available interrupt of both peripherals pending
and enabled; the transaction runs on I2C0. -/
def worldBothPending : World :=
  { worldLS with regs := fun _ => { STATE := 0, IF := 0x20, IEN := 0x1E0, RXDATA := 0x9A } }

/-- A world in which only the slave-stop flag of I2C0 is pending, with the interrupt
sources of `i2c_open` enabled. -/
def worldSSTOP : World :=
  { worldLS with
    regs := fun _ => { STATE := 0, IF := 0x10000, IEN := i2c_open_enabled pearlGecko,
                       RXDATA := 0 } }

/-- A world in which the ACK flag of I2C0 is pending but no interrupt source is enabled. -/
def worldDisabled : World :=
  { worldLS with regs := fun _ => { STATE := 0, IF := 0x40, IEN := 0, RXDATA := 0 } }

/-- A world in phase `LS` in which the data-available and the stop interrupt of I2C0 are
pending together; the received byte is 0x9A. -/
def worldCoincide : World :=
  { worldLS with
    i2c_State := { worldLS.i2c_State with SI7021_Read_CB := 42 }
    regs := fun _ => { STATE := 0, IF := 0x120, IEN := 0x1E0, RXDATA := 0x9A } }

/-! ## General facts about runs -/

theorem next_run (f : World → World) (w : World) (h : w.halted = false) : next f w = f w := by
  simp [next, h]

theorem next_halted (f : World → World) (w : World) (h : w.halted = true) : next f w = w := by
  simp [next, h]

theorem runEvents_append (k : Consts) (es fs : List Event) (w : World) :
    runEvents k (es ++ fs) w = runEvents k fs (runEvents k es w) := by
  induction es generalizing w with
  | nil => rfl
  | cons e es ih => simp [runEvents, ih]

theorem runEvents_halted (k : Consts) (es : List Event) (w : World) (h : w.halted = true) :
    runEvents k es w = w := by
  induction es with
  | nil => rfl
  | cons e es ih => simp [runEvents, next_halted _ _ h, ih]

theorem retryWrites_filter_power (k : Consts) (p : Periph) (a n : Nat) :
    (retryWrites k p a n).filter isPowerCall = [] := by
  induction n with
  | zero => rfl
  | succ n ih => simp [retryWrites, isPowerCall, ih]

theorem retryWrites_filter_scheduler (k : Consts) (p : Periph) (a n : Nat) :
    (retryWrites k p a n).filter isSchedulerCall = [] := by
  induction n with
  | zero => rfl
  | succ n ih => simp [retryWrites, isSchedulerCall, ih]

theorem assertFail_not_mem_retryWrites (k : Consts) (p : Periph) (a n : Nat) :
    Effect.assertFail ∉ retryWrites k p a n := by
  induction n with
  | zero => simp [retryWrites]
  | succ n ih => simp [retryWrites, ih]

/-- Unanswered read addresses: `n` NACK events in phase `Read` only add the retry writes
to the trace. -/
theorem runEvents_replicate_NACK (k : Consts) (n : Nat) (w : World)
    (hS : w.i2c_State.STATE = Read) (hh : w.halted = false) :
    runEvents k (List.replicate n Event.NACK) w =
      { w with
        trace := w.trace ++ retryWrites k w.i2c_State.i2c w.i2c_State.slaveAddress n } := by
  induction n generalizing w with
  | zero => simp [runEvents, retryWrites]
  | succ n ih =>
    rw [List.replicate_succ, runEvents, next_run _ _ hh]
    rw [ih _ (by simp [handle, i2c_NACK_fun, hS, regWrite])
      (by simp [handle, i2c_NACK_fun, hS, regWrite, hh])]
    simp [handle, i2c_NACK_fun, hS, regWrite, retryWrites]

/-- The world after `I2C_Start` on an idle bus and a complete sequence of events. -/
theorem transaction_world (k : Consts) (i2c : Periph) (data address cb Command b1 b2 n : Nat)
    (w : World) (hw : w.halted = false)
    (hidle : (w.regs i2c).STATE &&& k.I2C_STATE_STATE_MASK = k.I2C_STATE_STATE_IDLE) :
    runEvents k (transactionEvents n b1 b2) (I2C_Start k i2c data address cb Command w) =
      { i2c_State :=
          { STATE := Call, slaveAddress := address, i2c := i2c, Command := Command,
            Data := data, SI7021_Read_CB := cb }
        mem := Function.update w.mem data (u32 (b1 <<< 8) ||| b2)
        regs := Function.update w.regs i2c { w.regs i2c with RXDATA := b2 }
        trace := w.trace ++
          ([Effect.sleep_block_mode k.EM2,
            Effect.write i2c Reg.CMD k.I2C_CMD_START,
            Effect.write i2c Reg.TXDATA (u32 (address <<< 1) ||| 0),
            Effect.write i2c Reg.TXDATA Command,
            Effect.write i2c Reg.CMD k.I2C_CMD_START,
            Effect.write i2c Reg.TXDATA (u32 (address <<< 1) ||| 1)] ++
           retryWrites k i2c address n ++
           [Effect.write i2c Reg.CMD k.I2C_CMD_ACK,
            Effect.write i2c Reg.CMD k.I2C_CMD_NACK,
            Effect.write i2c Reg.CMD k.I2C_CMD_STOP,
            Effect.sleep_unblock_mode k.EM2,
            Effect.add_scheduled_event cb])
        halted := false } := by
  unfold transactionEvents
  rw [runEvents_append, runEvents_append]
  have hA : runEvents k [Event.ACK, Event.ACK] (I2C_Start k i2c data address cb Command w) =
      { i2c_State :=
          { STATE := Read, slaveAddress := address, i2c := i2c, Command := Command,
            Data := data, SI7021_Read_CB := cb }
        mem := w.mem
        regs := w.regs
        trace := w.trace ++
          [Effect.sleep_block_mode k.EM2,
            Effect.write i2c Reg.CMD k.I2C_CMD_START,
            Effect.write i2c Reg.TXDATA (u32 (address <<< 1) ||| 0),
            Effect.write i2c Reg.TXDATA Command,
            Effect.write i2c Reg.CMD k.I2C_CMD_START,
            Effect.write i2c Reg.TXDATA (u32 (address <<< 1) ||| 1)]
        halted := false } := by
    simp [runEvents, next, handle, I2C_Start, EFM_ASSERT, hidle, hw, i2c_ACK_fun, regWrite,
      setSTATE, sleep_block_mode]
  rw [hA, runEvents_replicate_NACK k n _ rfl rfl]
  simp [runEvents, next, handle, i2c_ACK_fun, i2c_RXDATAV_fun, i2c_MSTOP_fun, regWrite,
    setSTATE, setData, hwReceive, sleep_unblock_mode, add_scheduled_event]

theorem effectsSince_append (w w1 : World) (l : List Effect) (h : w1.trace = w.trace ++ l) :
    effectsSince w w1 = l := by
  simp [effectsSince, h]

theorem u32_shift8 (b : Nat) (hb : b < 256) : u32 (b <<< 8) = b <<< 8 := by
  unfold u32
  rw [Nat.shiftLeft_eq]
  omega

theorem byte_pair_lt (b1 b2 : Nat) (hb1 : b1 < 256) (hb2 : b2 < 256) :
    b1 <<< 8 ||| b2 < 2 ^ 16 := by
  apply Nat.or_lt_two_pow
  · rw [Nat.shiftLeft_eq]; omega
  · omega

/-! ## The claims -/

/-- C1: `I2C_Start` on an idle bus followed by the events ACK, ACK, `n` times NACK, ACK,
RXDATAV (`b1`), RXDATAV (`b2`), MSTOP fires no assertion, ends with `STATE = Call`, calls
`add_scheduled_event` exactly once and with `cb`, and calls `sleep_block_mode(EM2)` and
`sleep_unblock_mode(EM2)` exactly once each, the block first; the result word then holds
`(b1 << 8) | b2` (for this `b1 < 256` is used, the second byte may be any value). -/
theorem C1_complete_transaction (k : Consts) (i2c : Periph)
    (data address cb Command b1 b2 n : Nat) (w : World) (hw : w.halted = false)
    (hidle : (w.regs i2c).STATE &&& k.I2C_STATE_STATE_MASK = k.I2C_STATE_STATE_IDLE)
    (hb1 : b1 < 256) :
    (runEvents k (transactionEvents n b1 b2)
        (I2C_Start k i2c data address cb Command w)).halted = false ∧
    Effect.assertFail ∉ effectsSince w (runEvents k (transactionEvents n b1 b2)
        (I2C_Start k i2c data address cb Command w)) ∧
    (runEvents k (transactionEvents n b1 b2)
        (I2C_Start k i2c data address cb Command w)).i2c_State.STATE = Call ∧
    (effectsSince w (runEvents k (transactionEvents n b1 b2)
        (I2C_Start k i2c data address cb Command w))).filter isSchedulerCall =
      [Effect.add_scheduled_event cb] ∧
    (effectsSince w (runEvents k (transactionEvents n b1 b2)
        (I2C_Start k i2c data address cb Command w))).filter isPowerCall =
      [Effect.sleep_block_mode k.EM2, Effect.sleep_unblock_mode k.EM2] ∧
    (runEvents k (transactionEvents n b1 b2)
        (I2C_Start k i2c data address cb Command w)).mem data = b1 <<< 8 ||| b2 := by
  rw [transaction_world k i2c data address cb Command b1 b2 n w hw hidle]
  rw [effectsSince_append w _ _ rfl]
  refine ⟨rfl, ?_, rfl, ?_, ?_, ?_⟩
  · simp [assertFail_not_mem_retryWrites]
  · simp [List.filter_cons, isSchedulerCall, retryWrites_filter_scheduler]
  · simp [List.filter_cons, isPowerCall, retryWrites_filter_power]
  · simp [u32_shift8 b1 hb1]

/-- Witness of C1: callback 42, command 0xF5, bytes 0x30 and 0x9A, no retry. -/
theorem C1_complete_transaction_witness :
    (runEvents pearlGecko (transactionEvents 0 0x30 0x9A)
        (I2C_Start pearlGecko Periph.I2C0 7 0x40 42 0xF5 world0)).halted = false ∧
    Effect.assertFail ∉ effectsSince world0 (runEvents pearlGecko (transactionEvents 0 0x30 0x9A)
        (I2C_Start pearlGecko Periph.I2C0 7 0x40 42 0xF5 world0)) ∧
    (runEvents pearlGecko (transactionEvents 0 0x30 0x9A)
        (I2C_Start pearlGecko Periph.I2C0 7 0x40 42 0xF5 world0)).i2c_State.STATE = Call ∧
    (effectsSince world0 (runEvents pearlGecko (transactionEvents 0 0x30 0x9A)
        (I2C_Start pearlGecko Periph.I2C0 7 0x40 42 0xF5 world0))).filter isSchedulerCall =
      [Effect.add_scheduled_event 42] ∧
    (effectsSince world0 (runEvents pearlGecko (transactionEvents 0 0x30 0x9A)
        (I2C_Start pearlGecko Periph.I2C0 7 0x40 42 0xF5 world0))).filter isPowerCall =
      [Effect.sleep_block_mode 2, Effect.sleep_unblock_mode 2] ∧
    (runEvents pearlGecko (transactionEvents 0 0x30 0x9A)
        (I2C_Start pearlGecko Periph.I2C0 7 0x40 42 0xF5 world0)).mem 7 = 0x309A :=
  C1_complete_transaction pearlGecko Periph.I2C0 7 0x40 42 0xF5 0x30 0x9A 0 world0 rfl
    (by decide) (by decide)

/-- C2: for received bytes `b1, b2 < 256` and any previous content of the result word,
after `i2c_RXDATAV_fun` has run in phase `MS` with `RXDATA = b1` and then with
`RXDATA = b2`, the word that `Data` points to is exactly `(b1 << 8) | b2`, a 16-bit
value. -/
theorem C2_result_word (k : Consts) (w : World) (b1 b2 : Nat)
    (hS : w.i2c_State.STATE = MS) (hb1 : b1 < 256) (hb2 : b2 < 256) :
    (i2c_RXDATAV_fun k (hwReceive b2 (i2c_RXDATAV_fun k (hwReceive b1 w)))).mem
        w.i2c_State.Data = b1 <<< 8 ||| b2 ∧
    (i2c_RXDATAV_fun k (hwReceive b2 (i2c_RXDATAV_fun k (hwReceive b1 w)))).mem
        w.i2c_State.Data < 2 ^ 16 := by
  have h : (i2c_RXDATAV_fun k (hwReceive b2 (i2c_RXDATAV_fun k (hwReceive b1 w)))).mem
      w.i2c_State.Data = b1 <<< 8 ||| b2 := by
    simp [i2c_RXDATAV_fun, hwReceive, hS, regWrite, setSTATE, setData, u32_shift8 b1 hb1]
  exact ⟨h, h ▸ byte_pair_lt b1 b2 hb1 hb2⟩

/-- Witness of C2: the boundary bytes 0xFF and 0x00 over a result word that held all
ones give 0xFF00. -/
theorem C2_result_word_witness :
    ((i2c_RXDATAV_fun pearlGecko (hwReceive 0x00 (i2c_RXDATAV_fun pearlGecko (hwReceive 0xFF
        { world0 with i2c_State := { world0.i2c_State with STATE := MS },
                      mem := fun _ => 0xFFFFFFFF })))).mem 0 = 0xFF00) ∧
    ((i2c_RXDATAV_fun pearlGecko (hwReceive 0x00 (i2c_RXDATAV_fun pearlGecko (hwReceive 0xFF
        { world0 with i2c_State := { world0.i2c_State with STATE := MS },
                      mem := fun _ => 0xFFFFFFFF })))).mem 0 < 2 ^ 16) :=
  C2_result_word pearlGecko
    { world0 with i2c_State := { world0.i2c_State with STATE := MS },
                  mem := fun _ => 0xFFFFFFFF } 0xFF 0x00 rfl (by decide) (by decide)

/-- C3: a handler takes the fatal-assertion path if and only if the pair of the current
phase and the event is not one of the seven pairs of the transition table, for every
value of `STATE`. -/
theorem C3_assert_iff_not_in_table (k : Consts) (w : World) (e : Event) :
    Effect.assertFail ∈ effectsSince w (handle k e w) ↔
      inTransitionTable w.i2c_State.STATE e = false := by
  cases e <;>
    simp only [handle, i2c_ACK_fun, i2c_NACK_fun, i2c_RXDATAV_fun, i2c_MSTOP_fun,
      inTransitionTable] <;>
    split_ifs <;>
    simp_all [effectsSince, EFM_ASSERT, regWrite, setSTATE, setData, hwReceive,
      sleep_unblock_mode, add_scheduled_event]

/-- Witness of C3: RXDATAV while in phase `Call` asserts. -/
theorem C3_assert_iff_not_in_table_witness :
    Effect.assertFail ∈ effectsSince world0 (handle pearlGecko (Event.RXDATAV 0x30) world0) :=
  (C3_assert_iff_not_in_table pearlGecko world0 (Event.RXDATAV 0x30)).mpr (by decide)

/-- The NACK handler applied `n` times in phase `Read` only adds the retry writes. -/
theorem iterate_NACK (k : Consts) (n : Nat) (w : World) (hS : w.i2c_State.STATE = Read) :
    (i2c_NACK_fun k)^[n] w =
      { w with
        trace := w.trace ++ retryWrites k w.i2c_State.i2c w.i2c_State.slaveAddress n } := by
  induction n generalizing w with
  | zero => simp [retryWrites]
  | succ n ih =>
    rw [Function.iterate_succ_apply]
    rw [ih _ (by simp [i2c_NACK_fun, hS, regWrite])]
    simp [i2c_NACK_fun, hS, regWrite, retryWrites]

/-- C4: a NACK handled in phase `Read` is an idempotent retry.  It leaves the whole
Transaction State (so `STATE` stays `Read`), the data memory, the registers and the halt
flag as they are, calls neither the scheduler nor the power manager, and writes exactly
`CMD = START` and then `TXDATA = (slaveAddress << 1) | 1`: the two writes of `i2c_ACK_fun`
in phase `Measure` (world `wm`, same peripheral and slave address).  Handled `n` times,
for every `n` and so for every `n >= 1`, it leaves the same state as handled once. -/
theorem C4_nack_retry (k : Consts) (w wm : World) (n : Nat)
    (hS : w.i2c_State.STATE = Read) (hm : wm.i2c_State.STATE = Measure)
    (hp : wm.i2c_State.i2c = w.i2c_State.i2c)
    (ha : wm.i2c_State.slaveAddress = w.i2c_State.slaveAddress) :
    (i2c_NACK_fun k w).i2c_State = w.i2c_State ∧
    (i2c_NACK_fun k w).mem = w.mem ∧
    (i2c_NACK_fun k w).regs = w.regs ∧
    (i2c_NACK_fun k w).halted = w.halted ∧
    effectsSince w (i2c_NACK_fun k w) =
      [Effect.write w.i2c_State.i2c Reg.CMD k.I2C_CMD_START,
       Effect.write w.i2c_State.i2c Reg.TXDATA (u32 (w.i2c_State.slaveAddress <<< 1) ||| 1)] ∧
    effectsSince wm (i2c_ACK_fun k wm) = effectsSince w (i2c_NACK_fun k w) ∧
    ((i2c_NACK_fun k)^[n] w).i2c_State = (i2c_NACK_fun k w).i2c_State ∧
    ((i2c_NACK_fun k)^[n] w).mem = (i2c_NACK_fun k w).mem ∧
    ((i2c_NACK_fun k)^[n] w).regs = (i2c_NACK_fun k w).regs ∧
    ((i2c_NACK_fun k)^[n] w).halted = (i2c_NACK_fun k w).halted := by
  rw [iterate_NACK k n w hS]
  simp [i2c_NACK_fun, i2c_ACK_fun, hS, hm, hp, ha, regWrite, setSTATE, effectsSince]

/-- Witness of C4: three NACK events for the sensor at address 0x40. -/
theorem C4_nack_retry_witness :
    (i2c_NACK_fun pearlGecko
        { world0 with i2c_State := { world0.i2c_State with STATE := Read, slaveAddress := 0x40 } }
      ).i2c_State =
      { world0.i2c_State with STATE := Read, slaveAddress := 0x40 } ∧
    effectsSince
        { world0 with i2c_State := { world0.i2c_State with STATE := Read, slaveAddress := 0x40 } }
        (i2c_NACK_fun pearlGecko
          { world0 with
            i2c_State := { world0.i2c_State with STATE := Read, slaveAddress := 0x40 } }) =
      [Effect.write Periph.I2C0 Reg.CMD 0x01, Effect.write Periph.I2C0 Reg.TXDATA 0x81] ∧
    ((i2c_NACK_fun pearlGecko)^[3]
        { world0 with i2c_State := { world0.i2c_State with STATE := Read, slaveAddress := 0x40 } }
      ).i2c_State =
      (i2c_NACK_fun pearlGecko
        { world0 with i2c_State := { world0.i2c_State with STATE := Read, slaveAddress := 0x40 } }
      ).i2c_State :=
  have h := C4_nack_retry pearlGecko
    { world0 with i2c_State := { world0.i2c_State with STATE := Read, slaveAddress := 0x40 } }
    { world0 with i2c_State := { world0.i2c_State with STATE := Measure, slaveAddress := 0x40 } }
    3 rfl rfl rfl rfl
  ⟨h.1, h.2.2.2.2.1, h.2.2.2.2.2.2.1⟩

/-- C5: `I2C_Start` on a bus that is not idle takes the fatal-assertion path and does
nothing else: no register is written, the sleep block is not acquired, and the
Transaction State, the data memory and the registers are unchanged. -/
theorem C5_start_busy_asserts (k : Consts) (i2c : Periph)
    (data address cb Command : Nat) (w : World)
    (hbusy : (w.regs i2c).STATE &&& k.I2C_STATE_STATE_MASK ≠ k.I2C_STATE_STATE_IDLE) :
    effectsSince w (I2C_Start k i2c data address cb Command w) = [Effect.assertFail] ∧
    (I2C_Start k i2c data address cb Command w).halted = true ∧
    (I2C_Start k i2c data address cb Command w).i2c_State = w.i2c_State ∧
    (I2C_Start k i2c data address cb Command w).mem = w.mem ∧
    (I2C_Start k i2c data address cb Command w).regs = w.regs := by
  simp [I2C_Start, EFM_ASSERT, hbusy, next, effectsSince]

/-- Witness of C5: the hardware state register of I2C0 reads 0x20, which is not idle. -/
theorem C5_start_busy_asserts_witness :
    effectsSince { world0 with regs := fun _ => { STATE := 0x20, IF := 0, IEN := 0, RXDATA := 0 } }
        (I2C_Start pearlGecko Periph.I2C0 7 0x40 42 0xF5
          { world0 with regs := fun _ => { STATE := 0x20, IF := 0, IEN := 0, RXDATA := 0 } }) =
      [Effect.assertFail] :=
  (C5_start_busy_asserts pearlGecko Periph.I2C0 7 0x40 42 0xF5
    { world0 with regs := fun _ => { STATE := 0x20, IF := 0, IEN := 0, RXDATA := 0 } }
    (by decide)).1

/-- C6: on an idle bus `I2C_Start(i2c, data, address, cb, Command)` calls
`sleep_block_mode(EM2)` once, then writes `CMD = START` and `TXDATA = (address << 1) | 0`,
and leaves the Transaction State `STATE = Call`, `slaveAddress = address`, `i2c = i2c`,
`Command = Command`, `Data = data`, `SI7021_Read_CB = cb`; the resulting record is the
same from every earlier world `w2`. -/
theorem C6_start_idle (k : Consts) (i2c : Periph) (data address cb Command : Nat)
    (w w2 : World) (hw : w.halted = false) (hw2 : w2.halted = false)
    (hidle : (w.regs i2c).STATE &&& k.I2C_STATE_STATE_MASK = k.I2C_STATE_STATE_IDLE)
    (hidle2 : (w2.regs i2c).STATE &&& k.I2C_STATE_STATE_MASK = k.I2C_STATE_STATE_IDLE) :
    effectsSince w (I2C_Start k i2c data address cb Command w) =
      [Effect.sleep_block_mode k.EM2,
       Effect.write i2c Reg.CMD k.I2C_CMD_START,
       Effect.write i2c Reg.TXDATA (u32 (address <<< 1) ||| 0)] ∧
    (I2C_Start k i2c data address cb Command w).i2c_State =
      { STATE := Call, slaveAddress := address, i2c := i2c, Command := Command,
        Data := data, SI7021_Read_CB := cb } ∧
    (I2C_Start k i2c data address cb Command w).halted = false ∧
    (I2C_Start k i2c data address cb Command w2).i2c_State =
      (I2C_Start k i2c data address cb Command w).i2c_State := by
  simp [I2C_Start, EFM_ASSERT, hidle, hidle2, hw, hw2, next, effectsSince, regWrite,
    sleep_block_mode]

/-- Witness of C6: the sensor read on I2C0, from a zeroed record and from one left in
phase `LS` by an earlier run. -/
theorem C6_start_idle_witness :
    effectsSince world0 (I2C_Start pearlGecko Periph.I2C0 7 0x40 42 0xF5 world0) =
      [Effect.sleep_block_mode 2,
       Effect.write Periph.I2C0 Reg.CMD 0x01,
       Effect.write Periph.I2C0 Reg.TXDATA 0x80] ∧
    (I2C_Start pearlGecko Periph.I2C0 7 0x40 42 0xF5
        { world0 with
          i2c_State := { STATE := LS, i2c := Periph.I2C1, slaveAddress := 9, Command := 9,
                         Data := 9, SI7021_Read_CB := 9 } }).i2c_State =
      (I2C_Start pearlGecko Periph.I2C0 7 0x40 42 0xF5 world0).i2c_State :=
  have h := C6_start_idle pearlGecko Periph.I2C0 7 0x40 42 0xF5 world0
    { world0 with
      i2c_State := { STATE := LS, i2c := Periph.I2C1, slaveAddress := 9, Command := 9,
                     Data := 9, SI7021_Read_CB := 9 } }
    rfl rfl (by decide) (by decide)
  ⟨h.1, h.2.2.2⟩

/-! ### Interrupt dispatch as a sequential composition -/

theorem TraceExtends.refl (w : World) : TraceExtends w w :=
  ⟨[], by simp⟩

theorem TraceExtends.trans (w w1 w2 : World) (h1 : TraceExtends w w1)
    (h2 : TraceExtends w1 w2) : TraceExtends w w2 := by
  obtain ⟨l1, e1⟩ := h1
  obtain ⟨l2, e2⟩ := h2
  exact ⟨l1 ++ l2, by rw [e2, e1, List.append_assoc]⟩

theorem TraceExtends.effects (w w1 : World) (h : TraceExtends w w1) :
    w1.trace = w.trace ++ effectsSince w w1 := by
  obtain ⟨l, e⟩ := h
  rw [effectsSince_append w w1 l e, e]

theorem handle_extends (k : Consts) (e : Event) (w : World) :
    TraceExtends w (handle k e w) := by
  cases e <;>
    simp only [handle, i2c_ACK_fun, i2c_NACK_fun, i2c_RXDATAV_fun, i2c_MSTOP_fun] <;>
    split_ifs <;>
    simp [TraceExtends, EFM_ASSERT, regWrite, setSTATE, setData, hwReceive,
      sleep_unblock_mode, add_scheduled_event]

theorem ACK_extends (k : Consts) (w : World) : TraceExtends w (i2c_ACK_fun k w) :=
  handle_extends k Event.ACK w

theorem NACK_extends (k : Consts) (w : World) : TraceExtends w (i2c_NACK_fun k w) :=
  handle_extends k Event.NACK w

theorem RXDATAV_extends (k : Consts) (w : World) : TraceExtends w (i2c_RXDATAV_fun k w) := by
  unfold i2c_RXDATAV_fun
  split_ifs <;> simp [TraceExtends, EFM_ASSERT, regWrite, setSTATE, setData]

theorem MSTOP_extends (k : Consts) (w : World) : TraceExtends w (i2c_MSTOP_fun k w) :=
  handle_extends k Event.MSTOP w

theorem next_extends (f : World → World) (hf : ∀ w, TraceExtends w (f w)) (w : World) :
    TraceExtends w (next f w) := by
  unfold next
  split_ifs
  · exact TraceExtends.refl w
  · exact hf w

theorem runHandlers_extends (fs : List (World → World))
    (hfs : ∀ f ∈ fs, ∀ w, TraceExtends w (f w)) (w : World) :
    TraceExtends w (runHandlers fs w) := by
  induction fs generalizing w with
  | nil => exact TraceExtends.refl w
  | cons f fs ih =>
    exact TraceExtends.trans _ _ _ (next_extends f (hfs f (List.mem_cons_self f fs)) w)
      (ih (fun g hg => hfs g (List.mem_cons_of_mem f hg)) _)

theorem dispatchOrder_extends (k : Consts) (flags : Nat) :
    ∀ f ∈ ((dispatchOrder k).filter (fun h => decide (flags &&& h.1 ≠ 0))).map Prod.snd,
      ∀ w, TraceExtends w (f w) := by
  intro f hf
  have hmem : f = i2c_ACK_fun k ∨ f = i2c_NACK_fun k ∨ f = i2c_RXDATAV_fun k ∨
      f = i2c_MSTOP_fun k := by
    simp only [List.mem_map, List.mem_filter, dispatchOrder, List.mem_cons,
      List.mem_singleton, List.not_mem_nil, or_false] at hf
    obtain ⟨a, ⟨ha, _⟩, rfl⟩ := hf
    rcases ha with rfl | rfl | rfl | rfl <;> simp
  rcases hmem with rfl | rfl | rfl | rfl
  · exact ACK_extends k
  · exact NACK_extends k
  · exact RXDATAV_extends k
  · exact MSTOP_extends k

/-- C7: for every value of `IF` and `IEN`, `I2C0_IRQHandler` is the dispatch contract:
it writes `IF & IEN` to `IFC` and then runs, in the order ACK, NACK, RXDATAV, MSTOP and
each on the world left by the one before, exactly the handlers whose flag is set in
`IF & IEN`; the write to `IFC` is the first thing it does. -/
theorem C7_dispatch_order (k : Consts) (w : World) :
    I2C0_IRQHandler k w = dispatchContract k Periph.I2C0 w ∧
    ∃ rest, effectsSince w (I2C0_IRQHandler k w) =
      Effect.write Periph.I2C0 Reg.IFC
        ((w.regs Periph.I2C0).IF &&& (w.regs Periph.I2C0).IEN) :: rest := by
  have heq : I2C0_IRQHandler k w = dispatchContract k Periph.I2C0 w := by
    unfold I2C0_IRQHandler dispatchContract dispatchOrder
    by_cases h1 : ((w.regs Periph.I2C0).IF &&& (w.regs Periph.I2C0).IEN) &&& k.I2C_IF_ACK = 0 <;>
    by_cases h2 : ((w.regs Periph.I2C0).IF &&& (w.regs Periph.I2C0).IEN) &&& k.I2C_IF_NACK = 0 <;>
    by_cases h3 : ((w.regs Periph.I2C0).IF &&& (w.regs Periph.I2C0).IEN) &&& k.I2C_IF_RXDATAV = 0 <;>
    by_cases h4 : ((w.regs Periph.I2C0).IF &&& (w.regs Periph.I2C0).IEN) &&& k.I2C_IF_MSTOP = 0 <;>
    simp [h1, h2, h3, h4, List.filter_cons, runHandlers]
  refine ⟨heq, ?_⟩
  rw [heq]
  obtain ⟨l, hl⟩ := runHandlers_extends _
    (dispatchOrder_extends k ((w.regs Periph.I2C0).IF &&& (w.regs Periph.I2C0).IEN))
    (regWrite Periph.I2C0 Reg.IFC ((w.regs Periph.I2C0).IF &&& (w.regs Periph.I2C0).IEN) w)
  refine ⟨l, ?_⟩
  apply effectsSince_append
  unfold dispatchContract
  rw [hl]
  simp [regWrite]

/-! ### The deep-sleep block -/

theorem handle_counts (k : Consts) (e : Event) (w : World)
    (h : (handle k e w).halted = false) :
    (handle k e w).trace.countP isUnblock =
      w.trace.countP isUnblock + (if e = Event.MSTOP then 1 else 0) ∧
    (handle k e w).trace.countP isBlock = w.trace.countP isBlock := by
  cases e <;>
    simp only [handle, i2c_ACK_fun, i2c_NACK_fun, i2c_RXDATAV_fun, i2c_MSTOP_fun] at h ⊢ <;>
    split_ifs at h ⊢ <;>
    simp_all [EFM_ASSERT, regWrite, setSTATE, setData, hwReceive, sleep_unblock_mode,
      add_scheduled_event, isUnblock, isBlock, List.countP_cons]

theorem runEvents_counts (k : Consts) (evs : List Event) (w : World)
    (h : (runEvents k evs w).halted = false) :
    (runEvents k evs w).trace.countP isUnblock =
      w.trace.countP isUnblock + evs.count Event.MSTOP ∧
    (runEvents k evs w).trace.countP isBlock = w.trace.countP isBlock := by
  induction evs generalizing w with
  | nil => simp [runEvents]
  | cons e es ih =>
    rw [runEvents] at h ⊢
    have h1 : (next (handle k e) w).halted = false := by
      by_contra hc
      rw [runEvents_halted k es _ (by simpa using hc)] at h
      exact hc h
    have hw : w.halted = false := by
      by_contra hc
      rw [next_halted _ _ (by simpa using hc)] at h1
      exact hc h1
    rw [next_run _ _ hw] at h h1 ⊢
    obtain ⟨hu, hb⟩ := handle_counts k e w h1
    obtain ⟨iu, ib⟩ := ih _ h
    rw [iu, ib, hu, hb, List.count_cons]
    refine ⟨?_, rfl⟩
    cases e
    case MSTOP => simp; omega
    all_goals simp

theorem runEvents_extends (k : Consts) (evs : List Event) (w : World) :
    TraceExtends w (runEvents k evs w) := by
  induction evs generalizing w with
  | nil => exact TraceExtends.refl w
  | cons e es ih =>
    exact TraceExtends.trans _ _ _ (next_extends _ (handle_extends k e) w) (ih _)

theorem start_idle_world (k : Consts) (i2c : Periph) (data address cb Command : Nat)
    (w : World) (hw : w.halted = false)
    (hidle : (w.regs i2c).STATE &&& k.I2C_STATE_STATE_MASK = k.I2C_STATE_STATE_IDLE) :
    I2C_Start k i2c data address cb Command w =
      { w with
        i2c_State :=
          { STATE := Call, slaveAddress := address, i2c := i2c, Command := Command,
            Data := data, SI7021_Read_CB := cb }
        trace := w.trace ++
          [Effect.sleep_block_mode k.EM2,
           Effect.write i2c Reg.CMD k.I2C_CMD_START,
           Effect.write i2c Reg.TXDATA (u32 (address <<< 1) ||| 0)] } := by
  simp [I2C_Start, EFM_ASSERT, hidle, hw, next, regWrite, sleep_block_mode]

/-- Counterexample to C8 as stated: after a single `I2C_Start` the twelve events
ACK, ACK, ACK, RXDATAV, RXDATAV, MSTOP, ACK, ACK, ACK, RXDATAV, RXDATAV, MSTOP fire no
assertion, yet `sleep_unblock_mode` is called twice against one `sleep_block_mode`. -/
theorem C8_counterexample :
    doubleRun.halted = false ∧
    Effect.assertFail ∉ effectsSince world0 doubleRun ∧
    (effectsSince world0 doubleRun).countP isUnblock = 2 ∧
    (effectsSince world0 doubleRun).countP isBlock = 1 := by
  decide

/-- C8, amended: in every assertion-free sequence of handler events that follows a single
`I2C_Start` on an idle bus, `sleep_unblock_mode` is called once per MSTOP event of the
sequence and `sleep_block_mode` exactly once; so in a sequence with at most one MSTOP
event the unblock calls do not exceed the block calls. -/
theorem C8_unblock_once_per_stop (k : Consts) (i2c : Periph)
    (data address cb Command : Nat) (evs : List Event) (w : World) (hw : w.halted = false)
    (hidle : (w.regs i2c).STATE &&& k.I2C_STATE_STATE_MASK = k.I2C_STATE_STATE_IDLE)
    (hok : (runEvents k evs (I2C_Start k i2c data address cb Command w)).halted = false) :
    (effectsSince w (runEvents k evs (I2C_Start k i2c data address cb Command w))).countP
        isUnblock = evs.count Event.MSTOP ∧
    (effectsSince w (runEvents k evs (I2C_Start k i2c data address cb Command w))).countP
        isBlock = 1 ∧
    (evs.count Event.MSTOP ≤ 1 →
      (effectsSince w (runEvents k evs (I2C_Start k i2c data address cb Command w))).countP
          isUnblock ≤
        (effectsSince w (runEvents k evs (I2C_Start k i2c data address cb Command w))).countP
          isBlock) := by
  obtain ⟨hu, hb⟩ := runEvents_counts k evs _ hok
  have hext := TraceExtends.effects _ _ (runEvents_extends k evs
    (I2C_Start k i2c data address cb Command w))
  rw [hext] at hu hb
  have hs := start_idle_world k i2c data address cb Command w hw hidle
  have hst : effectsSince w (runEvents k evs (I2C_Start k i2c data address cb Command w)) =
      effectsSince w (I2C_Start k i2c data address cb Command w) ++
        effectsSince (I2C_Start k i2c data address cb Command w)
          (runEvents k evs (I2C_Start k i2c data address cb Command w)) := by
    apply effectsSince_append
    rw [hext, hs]
    simp [effectsSince]
  have h0 : effectsSince w (I2C_Start k i2c data address cb Command w) =
      [Effect.sleep_block_mode k.EM2,
       Effect.write i2c Reg.CMD k.I2C_CMD_START,
       Effect.write i2c Reg.TXDATA (u32 (address <<< 1) ||| 0)] := by
    apply effectsSince_append
    rw [hs]
  rw [hst, h0]
  rw [List.countP_append] at hu hb
  have hsu : (I2C_Start k i2c data address cb Command w).trace.countP isUnblock =
      w.trace.countP isUnblock := by
    rw [hs]; simp [isUnblock, List.countP_cons]
  have hsb : (I2C_Start k i2c data address cb Command w).trace.countP isBlock =
      w.trace.countP isBlock + 1 := by
    rw [hs]; simp [isBlock, List.countP_cons]
  simp only [hsu, hsb] at hu hb
  have e1 : List.countP isUnblock
      [Effect.sleep_block_mode k.EM2,
       Effect.write i2c Reg.CMD k.I2C_CMD_START,
       Effect.write i2c Reg.TXDATA (u32 (address <<< 1) ||| 0)] = 0 := by
    simp [List.countP_cons, isUnblock]
  have e2 : List.countP isBlock
      [Effect.sleep_block_mode k.EM2,
       Effect.write i2c Reg.CMD k.I2C_CMD_START,
       Effect.write i2c Reg.TXDATA (u32 (address <<< 1) ||| 0)] = 1 := by
    simp [List.countP_cons, isBlock]
  rw [List.countP_append, List.countP_append, e1, e2]
  omega

/-- Witness of C8, amended: one complete transaction with two retries. -/
theorem C8_unblock_once_per_stop_witness :
    (effectsSince world0 (runEvents pearlGecko (transactionEvents 2 0x30 0x9A)
        (I2C_Start pearlGecko Periph.I2C0 7 0x40 42 0xF5 world0))).countP isUnblock = 1 ∧
    (effectsSince world0 (runEvents pearlGecko (transactionEvents 2 0x30 0x9A)
        (I2C_Start pearlGecko Periph.I2C0 7 0x40 42 0xF5 world0))).countP isBlock = 1 :=
  have h := C8_unblock_once_per_stop pearlGecko Periph.I2C0 7 0x40 42 0xF5
    (transactionEvents 2 0x30 0x9A) world0 rfl (by decide) (by decide)
  ⟨h.1, h.2.1⟩

/-! ### The order of the phases -/

theorem run_cons_ok (k : Consts) (e : Event) (rest : List Event) (w : World)
    (hh : w.halted = false) (hok : (runEvents k (e :: rest) w).halted = false) :
    (handle k e w).halted = false ∧ (runEvents k rest (handle k e w)).halted = false := by
  rw [runEvents, next_run _ _ hh] at hok
  refine ⟨?_, hok⟩
  by_contra hc
  rw [runEvents_halted k rest _ (by simpa using hc)] at hok
  exact hc hok

theorem phases_cons (k : Consts) (e : Event) (rest : List Event) (w : World)
    (hh : w.halted = false) :
    phases k (e :: rest) w = w.i2c_State.STATE :: phases k rest (handle k e w) := by
  rw [phases, next_run _ _ hh]

theorem phases_from_MStop (k : Consts) (evs : List Event) (w : World)
    (hS : w.i2c_State.STATE = MStop) (hh : w.halted = false) (hf : Event.MSTOP ∉ evs)
    (hok : (runEvents k (evs ++ [Event.MSTOP]) w).halted = false) :
    phases k (evs ++ [Event.MSTOP]) w = [MStop, Call] := by
  cases evs with
  | nil =>
    simp [phases, next, hh, handle, i2c_MSTOP_fun, hS, setSTATE]
  | cons e es =>
    rw [List.cons_append] at hok
    obtain ⟨h1, _⟩ := run_cons_ok k e _ w hh hok
    cases e with
    | ACK => simp [handle, i2c_ACK_fun, hS, EFM_ASSERT] at h1
    | NACK => simp [handle, i2c_NACK_fun, hS, EFM_ASSERT] at h1
    | RXDATAV b => simp [handle, i2c_RXDATAV_fun, hwReceive, hS, EFM_ASSERT] at h1
    | MSTOP => simp at hf

theorem phases_from_LS (k : Consts) (evs : List Event) (w : World)
    (hS : w.i2c_State.STATE = LS) (hh : w.halted = false) (hf : Event.MSTOP ∉ evs)
    (hok : (runEvents k (evs ++ [Event.MSTOP]) w).halted = false) :
    phases k (evs ++ [Event.MSTOP]) w = [LS, MStop, Call] := by
  cases evs with
  | nil =>
    obtain ⟨h1, _⟩ := run_cons_ok k Event.MSTOP [] w hh hok
    simp [handle, i2c_MSTOP_fun, hS, EFM_ASSERT] at h1
  | cons e es =>
    rw [List.cons_append] at hok ⊢
    obtain ⟨h1, h2⟩ := run_cons_ok k e _ w hh hok
    cases e with
    | ACK => simp [handle, i2c_ACK_fun, hS, EFM_ASSERT] at h1
    | NACK => simp [handle, i2c_NACK_fun, hS, EFM_ASSERT] at h1
    | RXDATAV b =>
      rw [phases_cons k _ _ w hh, hS]
      rw [phases_from_MStop k es _
        (by simp [handle, i2c_RXDATAV_fun, hwReceive, hS, regWrite, setSTATE, setData])
        h1 (fun hm => hf (List.mem_cons_of_mem _ hm)) h2]
    | MSTOP => simp at hf

theorem phases_from_MS (k : Consts) (evs : List Event) (w : World)
    (hS : w.i2c_State.STATE = MS) (hh : w.halted = false) (hf : Event.MSTOP ∉ evs)
    (hok : (runEvents k (evs ++ [Event.MSTOP]) w).halted = false) :
    phases k (evs ++ [Event.MSTOP]) w = [MS, LS, MStop, Call] := by
  cases evs with
  | nil =>
    obtain ⟨h1, _⟩ := run_cons_ok k Event.MSTOP [] w hh hok
    simp [handle, i2c_MSTOP_fun, hS, EFM_ASSERT] at h1
  | cons e es =>
    rw [List.cons_append] at hok ⊢
    obtain ⟨h1, h2⟩ := run_cons_ok k e _ w hh hok
    cases e with
    | ACK => simp [handle, i2c_ACK_fun, hS, EFM_ASSERT] at h1
    | NACK => simp [handle, i2c_NACK_fun, hS, EFM_ASSERT] at h1
    | RXDATAV b =>
      rw [phases_cons k _ _ w hh, hS]
      rw [phases_from_LS k es _
        (by simp [handle, i2c_RXDATAV_fun, hwReceive, hS, regWrite, setSTATE, setData])
        h1 (fun hm => hf (List.mem_cons_of_mem _ hm)) h2]
    | MSTOP => simp at hf

theorem phases_from_Read (k : Consts) (evs : List Event) (w : World)
    (hS : w.i2c_State.STATE = Read) (hh : w.halted = false) (hf : Event.MSTOP ∉ evs)
    (hok : (runEvents k (evs ++ [Event.MSTOP]) w).halted = false) :
    ∃ n, phases k (evs ++ [Event.MSTOP]) w =
      Read :: (List.replicate n Read ++ [MS, LS, MStop, Call]) := by
  induction evs generalizing w with
  | nil =>
    obtain ⟨h1, _⟩ := run_cons_ok k Event.MSTOP [] w hh hok
    simp [handle, i2c_MSTOP_fun, hS, EFM_ASSERT] at h1
  | cons e es ih =>
    rw [List.cons_append] at hok ⊢
    obtain ⟨h1, h2⟩ := run_cons_ok k e _ w hh hok
    cases e with
    | ACK =>
      refine ⟨0, ?_⟩
      rw [phases_cons k _ _ w hh, hS]
      rw [phases_from_MS k es _ (by simp [handle, i2c_ACK_fun, hS, setSTATE])
        h1 (fun hm => hf (List.mem_cons_of_mem _ hm)) h2]
      rfl
    | NACK =>
      obtain ⟨n, hn⟩ := ih _ (by simp [handle, i2c_NACK_fun, hS, regWrite])
        h1 (fun hm => hf (List.mem_cons_of_mem _ hm)) h2
      refine ⟨n + 1, ?_⟩
      rw [phases_cons k _ _ w hh, hS, hn]
      rfl
    | RXDATAV b => simp [handle, i2c_RXDATAV_fun, hwReceive, hS, EFM_ASSERT] at h1
    | MSTOP => simp at hf

theorem phases_from_Measure (k : Consts) (evs : List Event) (w : World)
    (hS : w.i2c_State.STATE = Measure) (hh : w.halted = false) (hf : Event.MSTOP ∉ evs)
    (hok : (runEvents k (evs ++ [Event.MSTOP]) w).halted = false) :
    ∃ n, phases k (evs ++ [Event.MSTOP]) w =
      Measure :: Read :: (List.replicate n Read ++ [MS, LS, MStop, Call]) := by
  cases evs with
  | nil =>
    obtain ⟨h1, _⟩ := run_cons_ok k Event.MSTOP [] w hh hok
    simp [handle, i2c_MSTOP_fun, hS, EFM_ASSERT] at h1
  | cons e es =>
    rw [List.cons_append] at hok ⊢
    obtain ⟨h1, h2⟩ := run_cons_ok k e _ w hh hok
    cases e with
    | ACK =>
      obtain ⟨n, hn⟩ := phases_from_Read k es _
        (by simp [handle, i2c_ACK_fun, hS, regWrite, setSTATE])
        h1 (fun hm => hf (List.mem_cons_of_mem _ hm)) h2
      exact ⟨n, by rw [phases_cons k _ _ w hh, hS, hn]⟩
    | NACK => simp [handle, i2c_NACK_fun, hS, EFM_ASSERT] at h1
    | RXDATAV b => simp [handle, i2c_RXDATAV_fun, hwReceive, hS, EFM_ASSERT] at h1
    | MSTOP => simp at hf

theorem phases_from_Call (k : Consts) (evs : List Event) (w : World)
    (hS : w.i2c_State.STATE = Call) (hh : w.halted = false) (hf : Event.MSTOP ∉ evs)
    (hok : (runEvents k (evs ++ [Event.MSTOP]) w).halted = false) :
    ∃ n, phases k (evs ++ [Event.MSTOP]) w =
      Call :: Measure :: Read :: (List.replicate n Read ++ [MS, LS, MStop, Call]) := by
  cases evs with
  | nil =>
    obtain ⟨h1, _⟩ := run_cons_ok k Event.MSTOP [] w hh hok
    simp [handle, i2c_MSTOP_fun, hS, EFM_ASSERT] at h1
  | cons e es =>
    rw [List.cons_append] at hok ⊢
    obtain ⟨h1, h2⟩ := run_cons_ok k e _ w hh hok
    cases e with
    | ACK =>
      obtain ⟨n, hn⟩ := phases_from_Measure k es _
        (by simp [handle, i2c_ACK_fun, hS, regWrite, setSTATE])
        h1 (fun hm => hf (List.mem_cons_of_mem _ hm)) h2
      exact ⟨n, by rw [phases_cons k _ _ w hh, hS, hn]⟩
    | NACK => simp [handle, i2c_NACK_fun, hS, EFM_ASSERT] at h1
    | RXDATAV b => simp [handle, i2c_RXDATAV_fun, hwReceive, hS, EFM_ASSERT] at h1
    | MSTOP => simp at hf

theorem handle_step_phase (k : Consts) (e : Event) (w : World)
    (h : Effect.assertFail ∉ effectsSince w (handle k e w)) :
    ((handle k e w).i2c_State.STATE = w.i2c_State.STATE ∧ e = Event.NACK ∧
        w.i2c_State.STATE = Read) ∨
      (handle k e w).i2c_State.STATE = nextPhase w.i2c_State.STATE := by
  cases e <;>
    simp only [handle, i2c_ACK_fun, i2c_NACK_fun, i2c_RXDATAV_fun, i2c_MSTOP_fun] at h ⊢ <;>
    split_ifs at h ⊢ <;>
    simp_all [effectsSince, EFM_ASSERT, regWrite, setSTATE, setData, hwReceive,
      sleep_unblock_mode, add_scheduled_event, nextPhase]

/-- C9: a handler step that does not assert either leaves `STATE` unchanged, which only
NACK in phase `Read` does, or moves it to the immediate successor in the order
Call, Measure, Read, MS, LS, MStop, Call (world `w0`, event `e`); and an assertion-free
run from `I2C_Start` on an idle bus up to and including the first MSTOP event goes
through all six phases in that order, repeating only `Read`, and ends in `Call`. -/
theorem C9_phase_order (k : Consts) (w0 : World) (e : Event) (i2c : Periph)
    (data address cb Command : Nat) (evs : List Event) (w : World) (hw : w.halted = false)
    (hidle : (w.regs i2c).STATE &&& k.I2C_STATE_STATE_MASK = k.I2C_STATE_STATE_IDLE)
    (hfirst : Event.MSTOP ∉ evs)
    (hok : (runEvents k (evs ++ [Event.MSTOP])
      (I2C_Start k i2c data address cb Command w)).halted = false) :
    (Effect.assertFail ∉ effectsSince w0 (handle k e w0) →
      ((handle k e w0).i2c_State.STATE = w0.i2c_State.STATE ∧ e = Event.NACK ∧
          w0.i2c_State.STATE = Read) ∨
        (handle k e w0).i2c_State.STATE = nextPhase w0.i2c_State.STATE) ∧
    ∃ n, phases k (evs ++ [Event.MSTOP]) (I2C_Start k i2c data address cb Command w) =
      [Call, Measure, Read] ++ List.replicate n Read ++ [MS, LS, MStop, Call] := by
  refine ⟨handle_step_phase k e w0, ?_⟩
  have hs := start_idle_world k i2c data address cb Command w hw hidle
  obtain ⟨n, hn⟩ := phases_from_Call k evs (I2C_Start k i2c data address cb Command w)
    (by rw [hs]) (by rw [hs]; exact hw) hfirst hok
  exact ⟨n, by rw [hn]; rfl⟩

/-- Witness of C9: NACK in phase `Read` as the step, and the run with one retry. -/
theorem C9_phase_order_witness :
    (runEvents pearlGecko ([Event.ACK, Event.ACK, Event.NACK, Event.ACK, Event.RXDATAV 0x30,
        Event.RXDATAV 0x9A] ++ [Event.MSTOP])
      (I2C_Start pearlGecko Periph.I2C0 7 0x40 42 0xF5 world0)).halted = false ∧
    ∃ n, phases pearlGecko ([Event.ACK, Event.ACK, Event.NACK, Event.ACK, Event.RXDATAV 0x30,
        Event.RXDATAV 0x9A] ++ [Event.MSTOP])
        (I2C_Start pearlGecko Periph.I2C0 7 0x40 42 0xF5 world0) =
      [Call, Measure, Read] ++ List.replicate n Read ++ [MS, LS, MStop, Call] :=
  ⟨by decide,
   (C9_phase_order pearlGecko
      { world0 with i2c_State := { world0.i2c_State with STATE := Read } } Event.NACK
      Periph.I2C0 7 0x40 42 0xF5
      [Event.ACK, Event.ACK, Event.NACK, Event.ACK, Event.RXDATAV 0x30, Event.RXDATAV 0x9A]
      world0 rfl (by decide) (by decide) (by decide)).2⟩

/-! ### Bus reset -/

/-- C10: whenever `i2c_bus_reset` returns, the interrupt-enable mask `IEN` of the
peripheral is the one it had before the call. -/
theorem C10_reset_restores_IEN (k : Consts) (fuel : Nat) (env : Nat → Nat) (i2c : Periph)
    (w w1 : World) (h : i2c_bus_reset k fuel env i2c w = some w1) :
    (w1.regs i2c).IEN = (w.regs i2c).IEN := by
  unfold i2c_bus_reset at h
  simp only [] at h
  split at h
  · exact absurd h (by simp)
  · injection h with h
    subst h
    simp [regWrite]

/-- Witness of C10: the reset of `resetIn` returns within five polls and `IEN` is 0x1E0
again. -/
theorem C10_reset_restores_IEN_witness :
    (i2c_bus_reset pearlGecko 5 resetEnv Periph.I2C0 resetIn).isSome = true ∧
    i2c_bus_reset pearlGecko 5 resetEnv Periph.I2C0 resetIn = some resetOut ∧
    (resetOut.regs Periph.I2C0).IEN = 0x1E0 :=
  ⟨by decide, rfl,
   C10_reset_restores_IEN pearlGecko 5 resetEnv Periph.I2C0 resetIn resetOut rfl⟩

/-- C12, the code at a failing input: on the bus `resetIn`, where `IEN` holds 0x1E0, the
reset writes 0xFFFFFE1F to `IEN` after saving it and 0x1E0 only at the end, so between
the two writes every interrupt source that was disabled is enabled. -/
theorem C12_reset_enables_interrupts :
    effectsSince resetIn resetOut =
      [Effect.write Periph.I2C0 Reg.CMD 0x20,
       Effect.write Periph.I2C0 Reg.IEN 0xFFFFFE1F,
       Effect.write Periph.I2C0 Reg.IFC 0x1E0,
       Effect.write Periph.I2C0 Reg.CMD 0x40,
       Effect.write Periph.I2C0 Reg.CMD 0x03,
       Effect.write Periph.I2C0 Reg.IFC 0x100,
       Effect.write Periph.I2C0 Reg.IEN 0x1E0,
       Effect.write Periph.I2C0 Reg.CMD 0x20] ∧
    ((resetBeforeWait pearlGecko Periph.I2C0 resetIn).regs Periph.I2C0).IEN = 0xFFFFFE1F := by
  decide

/-! ### The result word -/

/-- Counterexample to C13 as stated: in phase `LS`, which is neither `Read` nor `MS`, the
data-available handler changes the result word (0x3000 becomes 0x309A); and in phase
`Read` neither the ACK nor the NACK handler stores anything in it. -/
theorem C13_counterexample :
    worldLS.i2c_State.STATE ≠ Read ∧ worldLS.i2c_State.STATE ≠ MS ∧
    worldLS.mem 7 = 0x3000 ∧
    (handle pearlGecko (Event.RXDATAV 0x9A) worldLS).mem 7 = 0x309A ∧
    (handle pearlGecko Event.ACK worldRead).mem 7 = 0x3000 ∧
    (handle pearlGecko Event.NACK worldRead).mem 7 = 0x3000 := by
  decide

/-- C13, amended: the result word is written only by the data-available handler in phase
`MS`, which stores the high byte, and in phase `LS`, which ORs in the low byte; for every
other pair of phase and event, and at every other address, the handlers leave the data
memory unchanged. -/
theorem C13_result_written_in_MS_LS (k : Consts) (w : World) (e : Event) :
    (handle k e w).mem =
      match resultWrite w.i2c_State.STATE (w.mem w.i2c_State.Data) e with
      | some v => Function.update w.mem w.i2c_State.Data v
      | none => w.mem := by
  cases e <;>
    simp only [handle, i2c_ACK_fun, i2c_NACK_fun, i2c_RXDATAV_fun, i2c_MSTOP_fun,
      resultWrite] <;>
    split_ifs <;>
    simp_all [EFM_ASSERT, regWrite, setSTATE, setData, hwReceive, sleep_unblock_mode,
      add_scheduled_event]

/-! ### Sensor adapter -/

/-- C14, the code at a failing input: `si7021_read(42, I2C1)` on idle buses begins the
transaction on I2C0.  START and the address byte 0x80 are written to I2C0, nothing is
written to I2C1, and the Transaction State names I2C0 as the peripheral in use. -/
theorem C14_read_ignores_peripheral :
    writesOf Periph.I2C1 (effectsSince world0 (si7021_read pearlGecko 7 42 Periph.I2C1 world0))
      = [] ∧
    writesOf Periph.I2C0 (effectsSince world0 (si7021_read pearlGecko 7 42 Periph.I2C1 world0))
      = [(Reg.CMD, 0x01), (Reg.TXDATA, 0x80)] ∧
    (si7021_read pearlGecko 7 42 Periph.I2C1 world0).i2c_State =
      { STATE := Call, i2c := Periph.I2C0, slaveAddress := 0x40, Command := 0xF5, Data := 7,
        SI7021_Read_CB := 42 } := by
  decide

/-! ### The two interrupt service routines -/

theorem I2C0_IRQHandler_eq (k : Consts) (w : World) :
    I2C0_IRQHandler k w =
      serve k ((w.regs Periph.I2C0).IF &&& (w.regs Periph.I2C0).IEN)
        (regWrite Periph.I2C0 Reg.IFC
          ((w.regs Periph.I2C0).IF &&& (w.regs Periph.I2C0).IEN) w) :=
  rfl

theorem I2C1_IRQHandler_eq (k : Consts) (w : World) :
    I2C1_IRQHandler k w =
      serve k ((w.regs Periph.I2C1).IF &&& (w.regs Periph.I2C1).IEN)
        (regWrite Periph.I2C1 Reg.IFC
          ((w.regs Periph.I2C1).IF &&& (w.regs Periph.I2C1).IEN) w) :=
  rfl

theorem agree_start (v v1 : World) (hS : v.i2c_State = v1.i2c_State)
    (hh : v.halted = v1.halted) : Agree v v1 v v1 :=
  ⟨hS, hh, rfl, [], by simp, by simp, by simp⟩

theorem agree_trans (v v1 u u1 t t1 : World) (h1 : Agree v v1 u u1) (h2 : Agree u u1 t t1) :
    Agree v v1 t t1 := by
  obtain ⟨_, _, hp, l, e, e1, hl⟩ := h1
  obtain ⟨hS2, hh2, hp2, l2, e2, e21, hl2⟩ := h2
  refine ⟨hS2, hh2, hp2.trans hp, l ++ l2, ?_, ?_, ?_⟩
  · rw [e2, e, List.append_assoc]
  · rw [e21, e1, List.append_assoc]
  · intro q r x hx
    rcases List.mem_append.mp hx with hx | hx
    · exact hl q r x hx
    · exact (hl2 q r x hx).trans hp

theorem ACK_agree (k : Consts) (v v1 : World) (hS : v.i2c_State = v1.i2c_State)
    (hh : v.halted = v1.halted) : Agree v v1 (i2c_ACK_fun k v) (i2c_ACK_fun k v1) := by
  unfold i2c_ACK_fun Agree
  simp only [← hS]
  split_ifs <;>
    simp [EFM_ASSERT, regWrite, setSTATE, hh, ← hS] <;>
    tauto

theorem NACK_agree (k : Consts) (v v1 : World) (hS : v.i2c_State = v1.i2c_State)
    (hh : v.halted = v1.halted) : Agree v v1 (i2c_NACK_fun k v) (i2c_NACK_fun k v1) := by
  unfold i2c_NACK_fun Agree
  simp only [← hS]
  split_ifs
  · simp [regWrite, hh, ← hS]
    tauto
  · simp [EFM_ASSERT, hh, ← hS]

theorem RXDATAV_agree (k : Consts) (v v1 : World) (hS : v.i2c_State = v1.i2c_State)
    (hh : v.halted = v1.halted) :
    Agree v v1 (i2c_RXDATAV_fun k v) (i2c_RXDATAV_fun k v1) := by
  unfold i2c_RXDATAV_fun Agree
  simp only [← hS]
  split_ifs <;>
    simp [EFM_ASSERT, regWrite, setSTATE, setData, hh, ← hS] <;>
    tauto

theorem MSTOP_agree (k : Consts) (v v1 : World) (hS : v.i2c_State = v1.i2c_State)
    (hh : v.halted = v1.halted) : Agree v v1 (i2c_MSTOP_fun k v) (i2c_MSTOP_fun k v1) := by
  unfold i2c_MSTOP_fun Agree
  simp only [← hS]
  split_ifs <;>
    simp [EFM_ASSERT, setSTATE, sleep_unblock_mode, add_scheduled_event, hh, ← hS]

theorem agree_step (f : World → World) (c : Prop) [Decidable c]
    (hf : ∀ v v1 : World, v.i2c_State = v1.i2c_State → v.halted = v1.halted →
      Agree v v1 (f v) (f v1))
    (v v1 u u1 : World) (h : Agree v v1 u u1) :
    Agree v v1 (if c then next f u else u) (if c then next f u1 else u1) := by
  split_ifs
  · apply agree_trans v v1 u u1 _ _ h
    unfold next
    rw [← h.2.1]
    split_ifs
    · exact agree_start u u1 h.1 h.2.1
    · exact hf u u1 h.1 h.2.1
  · exact h

theorem serve_agree (k : Consts) (flags : Nat) (v v1 : World)
    (hS : v.i2c_State = v1.i2c_State) (hh : v.halted = v1.halted) :
    Agree v v1 (serve k flags v) (serve k flags v1) := by
  unfold serve
  exact agree_step _ _ (MSTOP_agree k) _ _ _ _
    (agree_step _ _ (RXDATAV_agree k) _ _ _ _
      (agree_step _ _ (NACK_agree k) _ _ _ _
        (agree_step _ _ (ACK_agree k) _ _ _ _ (agree_start v v1 hS hh))))

/-- C15: `I2C0_IRQHandler` and `I2C1_IRQHandler` drive the same Transaction State.  From
worlds with equal Transaction State and halt flag, and with equal masked flags of their
own peripheral, both leave the same Transaction State and halt flag, and after the write
to their own `IFC` both record the same effects `l` (scheduler calls, power-manager calls,
handler register writes); every register write in `l` goes to the peripheral stored in
the Transaction State. -/
theorem C15_shared_state (k : Consts) (w0 w1 : World) (hS : w0.i2c_State = w1.i2c_State)
    (hh : w0.halted = w1.halted)
    (hf : (w0.regs Periph.I2C0).IF &&& (w0.regs Periph.I2C0).IEN =
      (w1.regs Periph.I2C1).IF &&& (w1.regs Periph.I2C1).IEN) :
    (I2C0_IRQHandler k w0).i2c_State = (I2C1_IRQHandler k w1).i2c_State ∧
    (I2C0_IRQHandler k w0).halted = (I2C1_IRQHandler k w1).halted ∧
    ∃ l,
      effectsSince w0 (I2C0_IRQHandler k w0) =
        Effect.write Periph.I2C0 Reg.IFC
          ((w0.regs Periph.I2C0).IF &&& (w0.regs Periph.I2C0).IEN) :: l ∧
      effectsSince w1 (I2C1_IRQHandler k w1) =
        Effect.write Periph.I2C1 Reg.IFC
          ((w1.regs Periph.I2C1).IF &&& (w1.regs Periph.I2C1).IEN) :: l ∧
      ∀ q r x, Effect.write q r x ∈ l → q = w0.i2c_State.i2c := by
  rw [I2C0_IRQHandler_eq, I2C1_IRQHandler_eq, ← hf]
  obtain ⟨h1, h2, _, l, e, e1, hl⟩ := serve_agree k
    ((w0.regs Periph.I2C0).IF &&& (w0.regs Periph.I2C0).IEN)
    (regWrite Periph.I2C0 Reg.IFC ((w0.regs Periph.I2C0).IF &&& (w0.regs Periph.I2C0).IEN) w0)
    (regWrite Periph.I2C1 Reg.IFC ((w0.regs Periph.I2C0).IF &&& (w0.regs Periph.I2C0).IEN) w1)
    hS hh
  refine ⟨h1, h2, l, ?_, ?_, hl⟩
  · apply effectsSince_append
    rw [e]
    simp [regWrite]
  · apply effectsSince_append
    rw [e1]
    simp [regWrite]

/-- Witness of C15: both routines serve the data-available interrupt of a transaction
that runs on I2C0. -/
theorem C15_shared_state_witness :
    (I2C0_IRQHandler pearlGecko worldBothPending).i2c_State =
      (I2C1_IRQHandler pearlGecko worldBothPending).i2c_State ∧
    effectsSince worldBothPending (I2C1_IRQHandler pearlGecko worldBothPending) =
      [Effect.write Periph.I2C1 Reg.IFC 0x20,
       Effect.write Periph.I2C0 Reg.CMD 0x08,
       Effect.write Periph.I2C0 Reg.CMD 0x02] :=
  ⟨(C15_shared_state pearlGecko worldBothPending worldBothPending rfl rfl (by decide)).1,
   by decide⟩

/-! ### Assertion path, coinciding flags, frame of the handlers -/

theorem regWrite_RXDATA (p q : Periph) (r : Reg) (v : Nat) (w : World) :
    ((regWrite q r v w).regs p).RXDATA = (w.regs p).RXDATA := by
  by_cases h : p = q <;> cases r <;> simp [regWrite, Function.update, h]

theorem handle_fields (k : Consts) (e : Event) (w : World) :
    (handle k e w).i2c_State =
      { w.i2c_State with STATE := (handle k e w).i2c_State.STATE } := by
  cases e <;>
    simp only [handle, i2c_ACK_fun, i2c_NACK_fun, i2c_RXDATAV_fun, i2c_MSTOP_fun] <;>
    split_ifs <;>
    simp [EFM_ASSERT, regWrite, setSTATE, setData, hwReceive, sleep_unblock_mode,
      add_scheduled_event]

theorem runEvents_fields (k : Consts) (evs : List Event) (w : World) :
    (runEvents k evs w).i2c_State =
      { w.i2c_State with STATE := (runEvents k evs w).i2c_State.STATE } := by
  induction evs generalizing w with
  | nil => rfl
  | cons e es ih =>
    rw [runEvents, ih]
    unfold next
    split_ifs
    · rfl
    · rw [handle_fields]

/-- C17: a handler that takes the fatal-assertion path does nothing else.  For every pair
of phase and event outside the transition table the only effect is the failed assertion
(no register write, no `add_scheduled_event`, no `sleep_unblock_mode`), and the
Transaction State and the data memory, hence the result word, are unchanged. -/
theorem C17_assert_path_no_effect (k : Consts) (w : World) (e : Event)
    (h : inTransitionTable w.i2c_State.STATE e = false) :
    effectsSince w (handle k e w) = [Effect.assertFail] ∧
    (handle k e w).i2c_State = w.i2c_State ∧
    (handle k e w).mem = w.mem ∧
    (handle k e w).halted = true := by
  cases e <;>
    simp only [handle, i2c_ACK_fun, i2c_NACK_fun, i2c_RXDATAV_fun, i2c_MSTOP_fun,
      inTransitionTable] at h ⊢ <;>
    split_ifs <;>
    simp_all [effectsSince, EFM_ASSERT, hwReceive]

/-- Witness of C17: the stop event while the phase is `Call`. -/
theorem C17_assert_path_no_effect_witness :
    effectsSince world0 (handle pearlGecko Event.MSTOP world0) = [Effect.assertFail] ∧
    (handle pearlGecko Event.MSTOP world0).i2c_State = world0.i2c_State ∧
    (handle pearlGecko Event.MSTOP world0).mem = world0.mem ∧
    (handle pearlGecko Event.MSTOP world0).halted = true :=
  C17_assert_path_no_effect pearlGecko world0 Event.MSTOP (by decide)

/-- C18: when the masked flags of I2C0 contain RXDATAV and MSTOP but neither ACK nor NACK
and the phase is `LS`, one invocation of `I2C0_IRQHandler` runs the data-available handler
and then the stop handler.  After the write to `IFC` it writes NACK and STOP to `CMD` of
the peripheral of the transaction, calls `sleep_unblock_mode(EM2)` and
`add_scheduled_event` with the callback once each, fires no assertion, ORs the received
byte into the result word and ends in phase `Call`. -/
theorem C18_data_and_stop_coincide (k : Consts) (w : World) (hh : w.halted = false)
    (hS : w.i2c_State.STATE = LS)
    (hrx : ((w.regs Periph.I2C0).IF &&& (w.regs Periph.I2C0).IEN) &&& k.I2C_IF_RXDATAV ≠ 0)
    (hstop : ((w.regs Periph.I2C0).IF &&& (w.regs Periph.I2C0).IEN) &&& k.I2C_IF_MSTOP ≠ 0)
    (hack : ((w.regs Periph.I2C0).IF &&& (w.regs Periph.I2C0).IEN) &&& k.I2C_IF_ACK = 0)
    (hnack : ((w.regs Periph.I2C0).IF &&& (w.regs Periph.I2C0).IEN) &&& k.I2C_IF_NACK = 0) :
    I2C0_IRQHandler k w =
      i2c_MSTOP_fun k (i2c_RXDATAV_fun k (regWrite Periph.I2C0 Reg.IFC
        ((w.regs Periph.I2C0).IF &&& (w.regs Periph.I2C0).IEN) w)) ∧
    effectsSince w (I2C0_IRQHandler k w) =
      [Effect.write Periph.I2C0 Reg.IFC ((w.regs Periph.I2C0).IF &&& (w.regs Periph.I2C0).IEN),
       Effect.write w.i2c_State.i2c Reg.CMD k.I2C_CMD_NACK,
       Effect.write w.i2c_State.i2c Reg.CMD k.I2C_CMD_STOP,
       Effect.sleep_unblock_mode k.EM2,
       Effect.add_scheduled_event w.i2c_State.SI7021_Read_CB] ∧
    (I2C0_IRQHandler k w).halted = false ∧
    (I2C0_IRQHandler k w).i2c_State.STATE = Call ∧
    (I2C0_IRQHandler k w).mem =
      Function.update w.mem w.i2c_State.Data
        (w.mem w.i2c_State.Data ||| (w.regs w.i2c_State.i2c).RXDATA) := by
  have hrd := regWrite_RXDATA w.i2c_State.i2c Periph.I2C0 Reg.IFC
    ((w.regs Periph.I2C0).IF &&& (w.regs Periph.I2C0).IEN) w
  have heq : I2C0_IRQHandler k w =
      i2c_MSTOP_fun k (i2c_RXDATAV_fun k (regWrite Periph.I2C0 Reg.IFC
        ((w.regs Periph.I2C0).IF &&& (w.regs Periph.I2C0).IEN) w)) := by
    rw [I2C0_IRQHandler_eq]
    unfold serve
    simp only [hack, hnack, hrx, hstop, ne_eq, not_true_eq_false, not_false_eq_true,
      if_true, if_false]
    rw [next_run (i2c_RXDATAV_fun k) _ (by simp [regWrite, hh]),
      next_run (i2c_MSTOP_fun k) _
        (by simp [i2c_RXDATAV_fun, regWrite, setSTATE, setData, hS, hh])]
  refine ⟨heq, ?_, ?_, ?_, ?_⟩
  · apply effectsSince_append
    rw [heq]
    simp [i2c_MSTOP_fun, i2c_RXDATAV_fun, regWrite, setSTATE, setData, sleep_unblock_mode,
      add_scheduled_event, hS]
  · rw [heq]
    simp [i2c_MSTOP_fun, i2c_RXDATAV_fun, regWrite, setSTATE, setData, sleep_unblock_mode,
      add_scheduled_event, hS, hh]
  · rw [heq]
    simp [i2c_MSTOP_fun, i2c_RXDATAV_fun, regWrite, setSTATE, setData, sleep_unblock_mode,
      add_scheduled_event, hS]
  · rw [heq]
    simp only [regWrite] at hrd
    simp [i2c_MSTOP_fun, i2c_RXDATAV_fun, regWrite, setSTATE, setData, sleep_unblock_mode,
      add_scheduled_event, hS, hrd]

/-- Witness of C18: flags 0x120 (RXDATAV and MSTOP) in phase `LS`, received byte 0x9A,
result word 0x3000, callback 42. -/
theorem C18_data_and_stop_coincide_witness :
    effectsSince worldCoincide (I2C0_IRQHandler pearlGecko worldCoincide) =
      [Effect.write Periph.I2C0 Reg.IFC 0x120,
       Effect.write Periph.I2C0 Reg.CMD 0x08,
       Effect.write Periph.I2C0 Reg.CMD 0x02,
       Effect.sleep_unblock_mode 2,
       Effect.add_scheduled_event 42] ∧
    (I2C0_IRQHandler pearlGecko worldCoincide).halted = false ∧
    (I2C0_IRQHandler pearlGecko worldCoincide).i2c_State.STATE = Call ∧
    (I2C0_IRQHandler pearlGecko worldCoincide).mem 7 = 0x309A :=
  have h := C18_data_and_stop_coincide pearlGecko worldCoincide rfl rfl (by decide)
    (by decide) (by decide) (by decide)
  ⟨h.2.1, h.2.2.1, h.2.2.2.1, by rw [h.2.2.2.2]; decide⟩

/-- C19: no handler changes the fields `i2c`, `slaveAddress`, `Command`, `Data` and
`SI7021_Read_CB` of the Transaction State, and a handler changes the data memory at most
at the result word; so after `I2C_Start` on an idle bus the five fields keep the values
of the arguments through every sequence of events. -/
theorem C19_fields_frame (k : Consts) (w0 : World) (e : Event) (i2c : Periph)
    (data address cb Command : Nat) (evs : List Event) (w : World) (hw : w.halted = false)
    (hidle : (w.regs i2c).STATE &&& k.I2C_STATE_STATE_MASK = k.I2C_STATE_STATE_IDLE) :
    ((handle k e w0).i2c_State.i2c = w0.i2c_State.i2c ∧
      (handle k e w0).i2c_State.slaveAddress = w0.i2c_State.slaveAddress ∧
      (handle k e w0).i2c_State.Command = w0.i2c_State.Command ∧
      (handle k e w0).i2c_State.Data = w0.i2c_State.Data ∧
      (handle k e w0).i2c_State.SI7021_Read_CB = w0.i2c_State.SI7021_Read_CB) ∧
    (∀ a, a ≠ w0.i2c_State.Data → (handle k e w0).mem a = w0.mem a) ∧
    ((runEvents k evs (I2C_Start k i2c data address cb Command w)).i2c_State.i2c = i2c ∧
      (runEvents k evs (I2C_Start k i2c data address cb Command w)).i2c_State.slaveAddress =
        address ∧
      (runEvents k evs (I2C_Start k i2c data address cb Command w)).i2c_State.Command =
        Command ∧
      (runEvents k evs (I2C_Start k i2c data address cb Command w)).i2c_State.Data = data ∧
      (runEvents k evs (I2C_Start k i2c data address cb Command w)).i2c_State.SI7021_Read_CB =
        cb) := by
  refine ⟨?_, ?_, ?_⟩
  · rw [handle_fields]
    exact ⟨rfl, rfl, rfl, rfl, rfl⟩
  · intro a ha
    cases e <;>
      simp only [handle, i2c_ACK_fun, i2c_NACK_fun, i2c_RXDATAV_fun, i2c_MSTOP_fun] <;>
      split_ifs <;>
      simp [EFM_ASSERT, regWrite, setSTATE, setData, hwReceive, sleep_unblock_mode,
        add_scheduled_event, ha]
  · rw [runEvents_fields, start_idle_world k i2c data address cb Command w hw hidle]
    exact ⟨rfl, rfl, rfl, rfl, rfl⟩

/-- Witness of C19: the sensor read on I2C0 followed by a complete sequence of events
with two retries. -/
theorem C19_fields_frame_witness :
    (runEvents pearlGecko (transactionEvents 2 0x30 0x9A)
        (I2C_Start pearlGecko Periph.I2C0 7 0x40 42 0xF5 world0)).i2c_State.i2c =
      Periph.I2C0 ∧
    (runEvents pearlGecko (transactionEvents 2 0x30 0x9A)
        (I2C_Start pearlGecko Periph.I2C0 7 0x40 42 0xF5 world0)).i2c_State.slaveAddress =
      0x40 ∧
    (runEvents pearlGecko (transactionEvents 2 0x30 0x9A)
        (I2C_Start pearlGecko Periph.I2C0 7 0x40 42 0xF5 world0)).i2c_State.Command = 0xF5 ∧
    (runEvents pearlGecko (transactionEvents 2 0x30 0x9A)
        (I2C_Start pearlGecko Periph.I2C0 7 0x40 42 0xF5 world0)).i2c_State.Data = 7 ∧
    (runEvents pearlGecko (transactionEvents 2 0x30 0x9A)
        (I2C_Start pearlGecko Periph.I2C0 7 0x40 42 0xF5 world0)).i2c_State.SI7021_Read_CB =
      42 :=
  (C19_fields_frame pearlGecko worldLS (Event.RXDATAV 0x9A) Periph.I2C0 7 0x40 42 0xF5
    (transactionEvents 2 0x30 0x9A) world0 rfl (by decide)).2.2

/-- C20: an interrupt of I2C0 whose masked flags contain none of the ACK, NACK, RXDATAV
and MSTOP bits is dropped: `I2C0_IRQHandler` only writes the masked flags to `IFC`; it
fires no assertion, makes no other register write or call, and leaves the Transaction
State, the data memory and the halt flag unchanged. -/
theorem C20_unserved_flags_dropped (k : Consts) (w : World)
    (hack : ((w.regs Periph.I2C0).IF &&& (w.regs Periph.I2C0).IEN) &&& k.I2C_IF_ACK = 0)
    (hnack : ((w.regs Periph.I2C0).IF &&& (w.regs Periph.I2C0).IEN) &&& k.I2C_IF_NACK = 0)
    (hrx : ((w.regs Periph.I2C0).IF &&& (w.regs Periph.I2C0).IEN) &&& k.I2C_IF_RXDATAV = 0)
    (hstop : ((w.regs Periph.I2C0).IF &&& (w.regs Periph.I2C0).IEN) &&& k.I2C_IF_MSTOP = 0) :
    effectsSince w (I2C0_IRQHandler k w) =
      [Effect.write Periph.I2C0 Reg.IFC
        ((w.regs Periph.I2C0).IF &&& (w.regs Periph.I2C0).IEN)] ∧
    (I2C0_IRQHandler k w).i2c_State = w.i2c_State ∧
    (I2C0_IRQHandler k w).mem = w.mem ∧
    (I2C0_IRQHandler k w).halted = w.halted := by
  have heq : I2C0_IRQHandler k w = regWrite Periph.I2C0 Reg.IFC
      ((w.regs Periph.I2C0).IF &&& (w.regs Periph.I2C0).IEN) w := by
    rw [I2C0_IRQHandler_eq]
    unfold serve
    simp only [hack, hnack, hrx, hstop, ne_eq, not_true_eq_false, if_false]
  rw [heq]
  simp [effectsSince, regWrite]

/-- Witness of C20: only the slave-stop flag pending, with the sources of `i2c_open`
enabled; and an ACK flag that is pending but not enabled. -/
theorem C20_unserved_flags_dropped_witness :
    effectsSince worldSSTOP (I2C0_IRQHandler pearlGecko worldSSTOP) =
      [Effect.write Periph.I2C0 Reg.IFC 0x10000] ∧
    effectsSince worldDisabled (I2C0_IRQHandler pearlGecko worldDisabled) =
      [Effect.write Periph.I2C0 Reg.IFC 0] :=
  ⟨(C20_unserved_flags_dropped pearlGecko worldSSTOP (by decide) (by decide) (by decide)
      (by decide)).1,
   (C20_unserved_flags_dropped pearlGecko worldDisabled (by decide) (by decide) (by decide)
      (by decide)).1⟩

/-! ### Conversion to relative humidity -/

theorem roundEven_intCast (n : ℤ) : roundEven (n : ℚ) = n := by
  simp [roundEven]

theorem ulpExp_le (m e : ℤ) (hm : |m| < 2 ^ 24) (he : -149 ≤ e) (h0 : m ≠ 0) :
    ulpExp (m * (2 : ℚ) ^ e) ≤ e := by
  unfold ulpExp
  have hpos : (0 : ℚ) < |(m : ℚ) * 2 ^ e| := by
    apply abs_pos.mpr
    exact mul_ne_zero (by exact_mod_cast h0) (zpow_ne_zero _ (by norm_num))
  have hlt : |(m : ℚ) * 2 ^ e| < ((2 : ℕ) : ℚ) ^ (24 + e) := by
    rw [abs_mul, abs_of_pos (zpow_pos (by norm_num : (0 : ℚ) < 2) e), Nat.cast_ofNat,
      zpow_add₀ (by norm_num : (2 : ℚ) ≠ 0)]
    apply mul_lt_mul_of_pos_right _ (zpow_pos (by norm_num : (0 : ℚ) < 2) e)
    exact_mod_cast hm
  have hlog := (Int.lt_zpow_iff_log_lt (by norm_num : 1 < 2) hpos).mp hlt
  omega

/-- Rounding is exact on the values of the type `float`. -/
theorem roundFloat_of_isFloat (x : ℚ) (h : IsFloat x) : roundFloat x = x := by
  obtain ⟨m, e, hm, he, _, rfl⟩ := h
  by_cases h0 : m = 0
  · subst h0
    simp [roundFloat, roundEven]
  · have hle := ulpExp_le m e hm he h0
    unfold roundFloat
    generalize ulpExp ((m : ℚ) * 2 ^ e) = E at hle
    obtain ⟨d, rfl⟩ : ∃ d : ℕ, e = E + d := ⟨(e - E).toNat, by omega⟩
    have h2 : (2 : ℚ) ^ E ≠ 0 := zpow_ne_zero _ (by norm_num)
    have hq : (m : ℚ) * 2 ^ (E + (d : ℤ)) / 2 ^ E = ((m * 2 ^ d : ℤ) : ℚ) := by
      rw [zpow_add₀ (by norm_num : (2 : ℚ) ≠ 0), zpow_natCast]
      field_simp
      ring
    rw [hq, roundEven_intCast, zpow_add₀ (by norm_num : (2 : ℚ) ≠ 0), zpow_natCast]
    push_cast
    ring

/-- C16: for every raw value from 0 to 65535 in the data word, `si7021_return_humidity`
returns exactly the rational `125 * raw / 65536 - 6`, whatever the rounding of the `float`
arithmetic does to values that are not representable, because every intermediate result
is representable; the result is at least -6 and below 119. -/
theorem C16_humidity_exact (rnd : ℚ → ℚ) (hrnd : ∀ x, IsFloat x → rnd x = x) (data : Nat)
    (w : World) (hraw : w.mem data ≤ 65535) :
    si7021_return_humidity rnd data w = 125 * ((w.mem data : ℕ) : ℚ) / 65536 - 6 ∧
    -6 ≤ si7021_return_humidity rnd data w ∧
    si7021_return_humidity rnd data w < 119 := by
  unfold si7021_return_humidity
  generalize w.mem data = raw at hraw
  have h1 : IsFloat (raw : ℚ) :=
    ⟨raw, 0, by rw [abs_lt]; constructor <;> omega, by norm_num, by norm_num, by simp⟩
  have h2 : IsFloat (125 * (raw : ℚ)) :=
    ⟨125 * raw, 0, by rw [abs_lt]; constructor <;> omega, by norm_num, by norm_num,
      by push_cast; simp⟩
  have h3 : IsFloat (125 * (raw : ℚ) / 65536) :=
    ⟨125 * raw, -16, by rw [abs_lt]; constructor <;> omega, by norm_num, by norm_num, by
      push_cast
      rw [zpow_neg, div_eq_mul_inv]
      norm_num⟩
  have h4 : IsFloat (125 * (raw : ℚ) / 65536 - 6) :=
    ⟨125 * raw - 393216, -16, by rw [abs_lt]; constructor <;> omega, by norm_num,
      by norm_num, by
      push_cast
      rw [zpow_neg]
      norm_num
      ring⟩
  rw [hrnd _ h1, hrnd _ h2, hrnd _ h3, hrnd _ h4]
  have hr : (raw : ℚ) ≤ 65535 := by exact_mod_cast hraw
  have hr0 : (0 : ℚ) ≤ raw := by positivity
  refine ⟨rfl, ?_, ?_⟩
  · linarith [div_nonneg (mul_nonneg (by norm_num : (0 : ℚ) ≤ 125) hr0)
      (by norm_num : (0 : ℚ) ≤ 65536)]
  · have : 125 * (raw : ℚ) / 65536 < 125 := by
      rw [div_lt_iff₀ (by norm_num : (0 : ℚ) < 65536)]
      linarith
    linarith

/-- Witness of C16: with the rounding to nearest of binary32, the raw value 0 gives -6. -/
theorem C16_humidity_exact_witness :
    si7021_return_humidity roundFloat 0 world0 = -6 := by
  have h := (C16_humidity_exact roundFloat roundFloat_of_isFloat 0 world0 (by decide)).1
  simpa [world0] using h

end Si7021
